import Mathlib

/-!
Verification of the incident-resource client layer (`incident.go`) against its
natural-language specification.

The Go source is shallowly embedded:
* Go byte strings that flow through the query encoder are modelled as
  `List (Fin 256)` (Go strings are arbitrary byte sequences); strings that are
  only compared or concatenated (request paths, JSON keys) are Lean `String`s.
* The `go-querystring` encoder composed with `url.Values.Encode` is modelled at
  the byte level, including percent-escaping and the alphabetical key sort that
  `Encode` performs over the `url.Values` map.
* JSON documents are an inductive `Json` value; `encoding/json` marshalling and
  unmarshalling of the concrete structs of `incident.go` are modelled
  field-by-field (struct field matching is case-insensitive with
  last-occurrence wins, unknown keys are ignored, absent keys leave the zero
  value).
* The HTTP gateway (`Client.get/post/put` of `client.go`, which is outside the
  embedded file) is modelled from the spec as a function from a request
  descriptor to a response.
-/

set_option maxRecDepth 4000

namespace PD

/-- A Go byte. -/
abbrev Byte := Fin 256

/-- A Go string viewed as its byte sequence. -/
abbrev ByteStr := List Byte

/-- The percent byte. -/
def pctB : Byte := ⟨37, by decide⟩

/-- The plus byte. -/
def plusB : Byte := ⟨43, by decide⟩

/-- The space byte. -/
def spaceB : Byte := ⟨32, by decide⟩

/-- The ampersand byte. -/
def ampB : Byte := ⟨38, by decide⟩

/-- The equals-sign byte. -/
def eqlB : Byte := ⟨61, by decide⟩

/-- Bytes kept verbatim by Go's `url.QueryEscape`: ASCII alphanumerics and
`-`, `.`, `_`, `~`. -/
def isUnreserved (b : Byte) : Bool :=
  (48 ≤ b.val && b.val ≤ 57) || (65 ≤ b.val && b.val ≤ 90) ||
  (97 ≤ b.val && b.val ≤ 122) ||
  b.val = 45 || b.val = 46 || b.val = 95 || b.val = 126

/-- Uppercase hex digit byte for a nibble, as in Go's escaping table
"0123456789ABCDEF". -/
def hexDigit (n : Fin 16) : Byte :=
  if h : n.val < 10 then ⟨48 + n.val, by omega⟩ else ⟨55 + n.val, by omega⟩

/-- Go `url.QueryEscape` on a single byte: unreserved bytes unchanged, space
becomes `+`, everything else becomes `%XX`. -/
def escapeByte (b : Byte) : ByteStr :=
  if isUnreserved b then [b]
  else if b.val = 32 then [plusB]
  else [pctB, hexDigit ⟨b.val / 16, Nat.div_lt_of_lt_mul b.isLt⟩,
        hexDigit ⟨b.val % 16, Nat.mod_lt _ (by decide)⟩]

/-- Go `url.QueryEscape` on a byte string. -/
def escapeBytes : ByteStr → ByteStr
  | [] => []
  | b :: rest => escapeByte b ++ escapeBytes rest

/-- Value of a hex digit byte (both cases accepted, as in Go's `unhex`). -/
def unhex (b : Byte) : Option Nat :=
  if 48 ≤ b.val && b.val ≤ 57 then some (b.val - 48)
  else if 65 ≤ b.val && b.val ≤ 70 then some (b.val - 55)
  else if 97 ≤ b.val && b.val ≤ 102 then some (b.val - 87)
  else none

/-- Go `url.QueryUnescape`: `+` becomes space, `%XX` is decoded (failing when
not followed by two hex digits), other bytes pass through. -/
def unescapeBytes : ByteStr → Option ByteStr
  | [] => some []
  | b :: rest =>
    if b.val = 37 then
      match rest with
      | h :: l :: rest2 =>
        match unhex h, unhex l with
        | some hv, some lv =>
          (unescapeBytes rest2).map (fun tl => ⟨(16 * hv + lv) % 256, Nat.mod_lt _ (by decide)⟩ :: tl)
        | _, _ => none
      | _ => none
    else if b.val = 43 then (unescapeBytes rest).map (fun tl => spaceB :: tl)
    else (unescapeBytes rest).map (fun tl => b :: tl)

theorem unreserved_props : ∀ b : Byte, isUnreserved b = true →
    b.val ≠ 37 ∧ b.val ≠ 43 ∧ b.val ≠ 38 ∧ b.val ≠ 61 ∧ b.val ≠ 59 := by decide

theorem unhex_hexDigit : ∀ n : Fin 16, unhex (hexDigit n) = some n.val := by decide

theorem hexDigit_no_sep : ∀ n : Fin 16,
    (hexDigit n).val ≠ 38 ∧ (hexDigit n).val ≠ 61 ∧ (hexDigit n).val ≠ 59 := by decide

/-- Escaped output never contains the separator bytes `&`, `=`, `;`. -/
theorem escapeByte_no_sep (b : Byte) : ∀ x ∈ escapeByte b,
    x.val ≠ 38 ∧ x.val ≠ 61 ∧ x.val ≠ 59 := by
  intro x hx
  unfold escapeByte at hx
  by_cases hu : isUnreserved b
  · rw [if_pos hu] at hx
    simp only [List.mem_singleton] at hx
    obtain ⟨-, -, h⟩ := unreserved_props b hu
    rw [hx]
    exact h
  · rw [if_neg hu] at hx
    by_cases h32 : b.val = 32
    · rw [if_pos h32] at hx
      simp only [List.mem_singleton] at hx
      subst hx
      decide
    · rw [if_neg h32] at hx
      simp only [List.mem_cons, List.mem_singleton, List.not_mem_nil, or_false] at hx
      rcases hx with hx | hx | hx <;> subst hx
      · decide
      · exact hexDigit_no_sep _
      · exact hexDigit_no_sep _

theorem escapeBytes_no_sep (s : ByteStr) : ∀ x ∈ escapeBytes s,
    x.val ≠ 38 ∧ x.val ≠ 61 ∧ x.val ≠ 59 := by
  induction s with
  | nil => intro x hx; simp [escapeBytes] at hx
  | cons b rest ih =>
    intro x hx
    simp only [escapeBytes, List.mem_append] at hx
    rcases hx with hx | hx
    · exact escapeByte_no_sep b x hx
    · exact ih x hx

theorem unescapeBytes_cons_plain (b : Byte) (rest : ByteStr)
    (h37 : b.val ≠ 37) (h43 : b.val ≠ 43) :
    unescapeBytes (b :: rest) = (unescapeBytes rest).map (fun tl => b :: tl) := by
  cases rest with
  | nil => rw [unescapeBytes.eq_3 _ _ (by intro h l r2 hh; simp at hh), if_neg h37, if_neg h43]
  | cons x xs =>
    cases xs with
    | nil => rw [unescapeBytes.eq_3 _ _ (by intro h l r2 hh; simp at hh), if_neg h37, if_neg h43]
    | cons y ys => rw [unescapeBytes.eq_2, if_neg h37, if_neg h43]

theorem unescapeBytes_cons_plus (rest : ByteStr) :
    unescapeBytes (plusB :: rest) = (unescapeBytes rest).map (fun tl => spaceB :: tl) := by
  cases rest with
  | nil =>
    rw [unescapeBytes.eq_3 _ _ (by intro h l r2 hh; simp at hh), if_neg (by decide),
      if_pos (by decide)]
  | cons x xs =>
    cases xs with
    | nil =>
      rw [unescapeBytes.eq_3 _ _ (by intro h l r2 hh; simp at hh), if_neg (by decide),
        if_pos (by decide)]
    | cons y ys => rw [unescapeBytes.eq_2, if_neg (by decide), if_pos (by decide)]

theorem unescapeBytes_cons_pct (h l : Byte) (rest : ByteStr) :
    unescapeBytes (pctB :: h :: l :: rest) =
      match unhex h, unhex l with
      | some hv, some lv =>
        (unescapeBytes rest).map (fun tl => ⟨(16 * hv + lv) % 256, Nat.mod_lt _ (by decide)⟩ :: tl)
      | _, _ => none := by
  rw [unescapeBytes.eq_2, if_pos (by decide)]

/-- Unescaping inverts escaping. -/
theorem unescape_escape : ∀ s : ByteStr, unescapeBytes (escapeBytes s) = some s := by
  intro s
  induction s with
  | nil => rfl
  | cons b rest ih =>
    show unescapeBytes (escapeByte b ++ escapeBytes rest) = some (b :: rest)
    by_cases hu : isUnreserved b
    · obtain ⟨h37, h43, -⟩ := unreserved_props b hu
      have he : escapeByte b = [b] := by simp [escapeByte, hu]
      rw [he, List.singleton_append, unescapeBytes_cons_plain b _ h37 h43, ih]
      rfl
    · by_cases h32 : b.val = 32
      · have he : escapeByte b = [plusB] := by simp [escapeByte, hu, h32]
        rw [he, List.singleton_append, unescapeBytes_cons_plus, ih]
        have hb : b = spaceB := by
          apply Fin.ext
          show b.val = 32
          exact h32
        rw [hb]
        rfl
      · have he : escapeByte b =
            [pctB, hexDigit ⟨b.val / 16, by omega⟩, hexDigit ⟨b.val % 16, by omega⟩] := by
          simp [escapeByte, hu, h32]
        rw [he]
        show unescapeBytes (pctB :: _ :: _ :: escapeBytes rest) = _
        rw [unescapeBytes_cons_pct]
        simp only [unhex_hexDigit, ih]
        have hv : (⟨(16 * (b.val / 16) + b.val % 16) % 256, by omega⟩ : Byte) = b := by
          apply Fin.ext
          show (16 * (b.val / 16) + b.val % 16) % 256 = b.val
          have hb := b.isLt
          omega
        simp only [hv]
        rfl

/-- One escaped `key=value` unit, as `url.Values.Encode` emits it (both key and
value go through `QueryEscape`). -/
def encPair (p : ByteStr × ByteStr) : ByteStr :=
  escapeBytes p.1 ++ eqlB :: escapeBytes p.2

/-- Join escaped pairs with ampersands, as `url.Values.Encode` does. -/
def joinAmp : List ByteStr → ByteStr
  | [] => []
  | [p] => p
  | p :: q :: ps => p ++ ampB :: joinAmp (q :: ps)

/-- Emit a flat pair list as a query string. -/
def encodePairs (ps : List (ByteStr × ByteStr)) : ByteStr :=
  joinAmp (ps.map encPair)

/-- Split a query string at ampersands (the `strings.Cut` loop of
`url.ParseQuery`). -/
def splitAmp : ByteStr → List ByteStr
  | [] => [[]]
  | b :: r =>
    if b.val = 38 then [] :: splitAmp r
    else
      match splitAmp r with
      | [] => [[b]]
      | p :: ps => (b :: p) :: ps

/-- Parse one piece of a query string, as `url.ParseQuery` does: empty pieces
are skipped, a piece containing a semicolon is an error, and a piece is cut at
its first equals sign with both halves unescaped. -/
def parsePiece (p : ByteStr) : Option (List (ByteStr × ByteStr)) :=
  if p = [] then some []
  else if p.any (fun b => b.val == 59) then none
  else
    let k := p.takeWhile (fun b => b.val != 61)
    let rest := p.dropWhile (fun b => b.val != 61)
    match unescapeBytes k, unescapeBytes (rest.drop 1) with
    | some k2, some v2 => some [(k2, v2)]
    | _, _ => none

/-- Parse a whole query string into key-value pairs (`url.ParseQuery`). -/
def parseQuery (s : ByteStr) : Option (List (ByteStr × ByteStr)) :=
  ((splitAmp s).mapM parsePiece).map List.flatten

theorem splitAmp_no_amp (p : ByteStr) (h : ∀ x ∈ p, x.val ≠ 38) :
    splitAmp p = [p] := by
  induction p with
  | nil => rfl
  | cons b r ih =>
    have hb := h b (List.mem_cons_self b r)
    rw [splitAmp, if_neg hb, ih (fun x hx => h x (List.mem_cons_of_mem b hx))]

theorem splitAmp_append (p r : ByteStr) (h : ∀ x ∈ p, x.val ≠ 38) :
    splitAmp (p ++ ampB :: r) = p :: splitAmp r := by
  induction p with
  | nil =>
    show splitAmp (ampB :: r) = [] :: splitAmp r
    rw [splitAmp, if_pos (by decide)]
  | cons b bs ih =>
    have hb := h b (List.mem_cons_self b bs)
    show splitAmp (b :: (bs ++ ampB :: r)) = (b :: bs) :: splitAmp r
    rw [splitAmp, if_neg hb, ih (fun x hx => h x (List.mem_cons_of_mem b hx))]

theorem splitAmp_joinAmp : ∀ ps : List ByteStr, ps ≠ [] →
    (∀ p ∈ ps, ∀ x ∈ p, x.val ≠ 38) → splitAmp (joinAmp ps) = ps
  | [], h, _ => absurd rfl h
  | [p], _, hfree => by
    rw [joinAmp, splitAmp_no_amp p (hfree p (List.mem_singleton_self p))]
  | p :: q :: ps, _, hfree => by
    rw [joinAmp, splitAmp_append p _ (hfree p (List.mem_cons_self p _)),
      splitAmp_joinAmp (q :: ps) (by simp)
        (fun a ha x hx => hfree a (List.mem_cons_of_mem p ha) x hx)]

theorem takeWhile_ne61_append (xs ys : ByteStr) (h : ∀ x ∈ xs, x.val ≠ 61) :
    (xs ++ eqlB :: ys).takeWhile (fun b => b.val != 61) = xs := by
  induction xs with
  | nil => rw [List.nil_append, List.takeWhile_cons, if_neg (by decide)]
  | cons a as ih =>
    have ha : (a.val != 61) = true := by
      simp [bne_iff_ne]
      exact h a (List.mem_cons_self a as)
    simp only [List.cons_append, List.takeWhile_cons, ha, if_true]
    rw [ih (fun x hx => h x (List.mem_cons_of_mem a hx))]

theorem dropWhile_ne61_append (xs ys : ByteStr) (h : ∀ x ∈ xs, x.val ≠ 61) :
    (xs ++ eqlB :: ys).dropWhile (fun b => b.val != 61) = eqlB :: ys := by
  induction xs with
  | nil => rw [List.nil_append, List.dropWhile_cons, if_neg (by decide)]
  | cons a as ih =>
    have ha : (a.val != 61) = true := by
      simp [bne_iff_ne]
      exact h a (List.mem_cons_self a as)
    simp only [List.cons_append, List.dropWhile_cons, ha, if_true]
    exact ih (fun x hx => h x (List.mem_cons_of_mem a hx))

theorem encPair_ne_nil (p : ByteStr × ByteStr) : encPair p ≠ [] := by
  unfold encPair
  cases escapeBytes p.1 <;> simp

theorem encPair_no_amp (p : ByteStr × ByteStr) : ∀ x ∈ encPair p, x.val ≠ 38 := by
  intro x hx
  unfold encPair at hx
  rcases List.mem_append.mp hx with hx | hx
  · exact (escapeBytes_no_sep p.1 x hx).1
  · rcases List.mem_cons.mp hx with hx | hx
    · rw [hx]; decide
    · exact (escapeBytes_no_sep p.2 x hx).1

/-- Parsing one emitted pair recovers it. -/
theorem parsePiece_encPair (p : ByteStr × ByteStr) :
    parsePiece (encPair p) = some [p] := by
  have hne : encPair p ≠ [] := encPair_ne_nil p
  have h59 : (encPair p).any (fun b => b.val == 59) = false := by
    rw [List.any_eq_false]
    intro x hx
    simp only [beq_iff_eq]
    unfold encPair at hx
    rcases List.mem_append.mp hx with hx | hx
    · exact (escapeBytes_no_sep p.1 x hx).2.2
    · rcases List.mem_cons.mp hx with hx | hx
      · rw [hx]; decide
      · exact (escapeBytes_no_sep p.2 x hx).2.2
  have hk : (encPair p).takeWhile (fun b => b.val != 61) = escapeBytes p.1 :=
    takeWhile_ne61_append _ _ (fun x hx => (escapeBytes_no_sep p.1 x hx).2.1)
  have hv : (encPair p).dropWhile (fun b => b.val != 61) = eqlB :: escapeBytes p.2 :=
    dropWhile_ne61_append _ _ (fun x hx => (escapeBytes_no_sep p.1 x hx).2.1)
  unfold parsePiece
  rw [if_neg hne, h59]
  simp only [Bool.false_eq_true, if_false]
  rw [hk, hv]
  simp only [List.drop_succ_cons, List.drop_zero]
  rw [unescape_escape, unescape_escape]

theorem mapM_parsePiece (ps : List (ByteStr × ByteStr)) :
    (ps.map encPair).mapM parsePiece = some (ps.map (fun p => [p])) := by
  induction ps with
  | nil => rfl
  | cons p rest ih =>
    simp only [List.map_cons, List.mapM_cons, parsePiece_encPair, ih]
    rfl

theorem flatten_singletons (ps : List (ByteStr × ByteStr)) :
    List.flatten (ps.map (fun p => [p])) = ps := by
  induction ps with
  | nil => rfl
  | cons p rest ih => simp [List.flatten, ih]

/-- Round trip: parsing an emitted query string recovers the pair list. -/
theorem parseQuery_encodePairs (ps : List (ByteStr × ByteStr)) :
    parseQuery (encodePairs ps) = some ps := by
  cases ps with
  | nil => rfl
  | cons p rest =>
    unfold parseQuery encodePairs
    rw [splitAmp_joinAmp _ (by simp) (fun a ha x hx => by
      rcases List.mem_map.mp ha with ⟨q, -, hq⟩
      rw [← hq] at hx
      exact encPair_no_amp q x hx)]
    rw [mapM_parsePiece]
    show some (List.flatten ((p :: rest).map (fun q => [q]))) = some (p :: rest)
    rw [flatten_singletons]

/-- Lexicographic byte-string comparison: Go string ordering, as used by
`sort.Strings` on the keys inside `url.Values.Encode`. -/
def bytesLe : ByteStr → ByteStr → Bool
  | a :: as, b :: bs => decide (a.val < b.val) || (a == b && bytesLe as bs)
  | [], _ => true
  | _, _ => false

theorem bytesLe_refl : ∀ a : ByteStr, bytesLe a a = true
  | [] => rfl
  | a :: as => by simp [bytesLe, bytesLe_refl as]

theorem bytesLe_total : ∀ a b : ByteStr, bytesLe a b = true ∨ bytesLe b a = true
  | [], _ => Or.inl rfl
  | _ :: _, [] => Or.inr rfl
  | a :: as, b :: bs => by
    rcases Nat.lt_trichotomy a.val b.val with h | h | h
    · left; simp [bytesLe, h]
    · have hab : a = b := Fin.ext h
      subst hab
      rcases bytesLe_total as bs with ih | ih
      · left; simp [bytesLe, ih]
      · right; simp [bytesLe, ih]
    · right; simp [bytesLe, h]

theorem bytesLe_trans : ∀ a b c : ByteStr,
    bytesLe a b = true → bytesLe b c = true → bytesLe a c = true
  | [], _, _, _, _ => rfl
  | _ :: _, [], _, h, _ => by simp [bytesLe] at h
  | _ :: _, _ :: _, [], _, h2 => by simp [bytesLe] at h2
  | a :: as, b :: bs, c :: cs, h1, h2 => by
    simp only [bytesLe, Bool.or_eq_true, Bool.and_eq_true, decide_eq_true_eq,
      beq_iff_eq] at h1 h2 ⊢
    rcases h1 with h1 | ⟨hab, h1⟩
    · rcases h2 with h2 | ⟨hbc, h2⟩
      · left; omega
      · subst hbc; left; exact h1
    · subst hab
      rcases h2 with h2 | ⟨hbc, h2⟩
      · left; exact h2
      · right; exact ⟨hbc, bytesLe_trans as bs cs h1 h2⟩

theorem bytesLe_antisymm : ∀ a b : ByteStr,
    bytesLe a b = true → bytesLe b a = true → a = b
  | [], [], _, _ => rfl
  | [], _ :: _, _, h2 => by simp [bytesLe] at h2
  | _ :: _, [], h1, _ => by simp [bytesLe] at h1
  | a :: as, b :: bs, h1, h2 => by
    simp only [bytesLe, Bool.or_eq_true, Bool.and_eq_true, decide_eq_true_eq,
      beq_iff_eq] at h1 h2
    rcases h1 with h1 | ⟨hab, h1⟩
    · rcases h2 with h2 | ⟨hba, h2⟩
      · omega
      · subst hba; exact absurd h1 (lt_irrefl _)
    · subst hab
      rcases h2 with h2 | ⟨hba, h2⟩
      · exact absurd h2 (lt_irrefl _)
      · rw [bytesLe_antisymm as bs h1 h2]

/-- An entry of the `url.Values` map: a key with its ordered value list. -/
abbrev KV := ByteStr × List ByteStr

/-- Order on `url.Values` entries by key, as `Encode` sorts them. -/
def keyLe (a b : KV) : Prop := bytesLe a.1 b.1 = true

instance : DecidableRel keyLe := fun a b =>
  inferInstanceAs (Decidable (bytesLe a.1 b.1 = true))

instance : IsTotal KV keyLe := ⟨fun a b => bytesLe_total a.1 b.1⟩

instance : IsTrans KV keyLe := ⟨fun a b c => bytesLe_trans a.1 b.1 c.1⟩

instance : IsRefl KV keyLe := ⟨fun a => bytesLe_refl a.1⟩

/-- Flatten map entries into individual key-value pairs, in entry order and,
within an entry, value order (the nested loops of `url.Values.Encode`). -/
def flattenVals : List KV → List (ByteStr × ByteStr)
  | [] => []
  | (k, vs) :: r => vs.map (fun v => (k, v)) ++ flattenVals r

/-- Model of `url.Values.Encode` on an association-list view of the map: sort
the entries by key, then emit each value as an escaped pair joined by `&`. -/
def urlValuesEncode (m : List KV) : ByteStr :=
  encodePairs (flattenVals (List.insertionSort keyLe m))

/-- Two sorted lists that are permutations of each other and have no duplicate
keys are equal (keys decide the order; equal keys force equal entries). -/
theorem sorted_perm_nodup_eq : ∀ l₁ l₂ : List KV, l₁.Perm l₂ →
    l₁.Sorted keyLe → l₂.Sorted keyLe → (l₂.map Prod.fst).Nodup → l₁ = l₂
  | [], l₂, hp, _, _, _ => (hp.symm.eq_nil).symm
  | a :: t₁, [], hp, _, _, _ => hp.eq_nil
  | a :: t₁, b :: t₂, hp, hs₁, hs₂, hnd => by
    by_cases hab : a = b
    · subst hab
      rw [sorted_perm_nodup_eq t₁ t₂ (hp.cons_inv) hs₁.of_cons hs₂.of_cons
        (by
          rw [List.map_cons] at hnd
          exact (List.nodup_cons.mp hnd).2)]
    · exfalso
      have ha2 : a ∈ b :: t₂ := hp.mem_iff.mp (List.mem_cons_self a t₁)
      have hat2 : a ∈ t₂ := by
        rcases List.mem_cons.mp ha2 with h | h
        · exact absurd h hab
        · exact h
      have hb1 : b ∈ a :: t₁ := hp.mem_iff.mpr (List.mem_cons_self b t₂)
      have hbt1 : b ∈ t₁ := by
        rcases List.mem_cons.mp hb1 with h | h
        · exact absurd h.symm hab
        · exact h
      have hba : keyLe b a := List.rel_of_sorted_cons hs₂ a hat2
      have hab2 : keyLe a b := List.rel_of_sorted_cons hs₁ b hbt1
      have hkey : a.1 = b.1 := bytesLe_antisymm _ _ hab2 hba
      rw [List.map_cons, List.nodup_cons] at hnd
      exact hnd.1 (hkey ▸ List.mem_map_of_mem Prod.fst hat2)

/-- Encode is insensitive to the iteration order of the `url.Values` map:
any two association-list views that are permutations of a duplicate-free map
encode to the same bytes. -/
theorem urlValuesEncode_perm (m₁ m₂ : List KV) (h : m₁.Perm m₂)
    (hnd : (m₂.map Prod.fst).Nodup) : urlValuesEncode m₁ = urlValuesEncode m₂ := by
  unfold urlValuesEncode
  rw [sorted_perm_nodup_eq (List.insertionSort keyLe m₁) (List.insertionSort keyLe m₂)
    (((List.perm_insertionSort keyLe m₁).trans h).trans (List.perm_insertionSort keyLe m₂).symm)
    (List.sorted_insertionSort keyLe m₁) (List.sorted_insertionSort keyLe m₂)
    (((List.perm_insertionSort keyLe m₂).map Prod.fst).nodup_iff.mpr hnd)]

/-- Byte string of an ASCII string literal (used for the fixed url tag keys of
the option structs). -/
def asciiBytes (s : String) : ByteStr :=
  s.data.map (fun c => ⟨c.toNat % 256, Nat.mod_lt _ (by decide)⟩)

/-- Decimal digits accumulator for `fmt.Sprint` on unsigned integers; the
first argument is structural fuel (the initial number itself always
suffices, having at least as many units as digits). -/
def natToBytesAux : Nat → Nat → ByteStr → ByteStr
  | 0, _, acc => acc
  | fuel + 1, n, acc =>
    if n = 0 then acc
    else natToBytesAux fuel (n / 10) (⟨48 + n % 10, by omega⟩ :: acc)

/-- Decimal rendering of an unsigned integer, as `fmt.Sprint` produces for the
numeric option fields. -/
def natToBytes (n : Nat) : ByteStr :=
  if n = 0 then [⟨48, by decide⟩] else natToBytesAux n n []

/-- Rendering of a true boolean option field. -/
def trueBytes : ByteStr := asciiBytes "true"

/-- Modelled from the spec: the shared pagination descriptor (`APIListObject`
of `client.go`, which is not part of the embedded source file). The spec's
`ListOptions` carry offset/limit pagination plus a total count and a "more"
flag, every field optional ("omit if zero") in the query string. -/
structure APIListObject where
  Limit : Nat := 0
  Offset : Nat := 0
  More : Bool := false
  Total : Nat := 0
deriving DecidableEq

/-- Options of the ListIncidents endpoint (`ListIncidentsOptions`). The
embedded `APIListObject` is the field `listOpts`; the url tag keys are the
ones from the source: since, until, date_range, statuses (brackets),
incident_key, service_ids (brackets), team_ids (brackets), user_ids
(brackets), urgencies (brackets), time_zone, sort_by, include (brackets),
all with omitempty. -/
structure ListIncidentsOptions where
  listOpts : APIListObject := {}
  Since : ByteStr := []
  Until : ByteStr := []
  DateRange : ByteStr := []
  Statuses : List ByteStr := []
  IncidentKey : ByteStr := []
  ServiceIDs : List ByteStr := []
  TeamIDs : List ByteStr := []
  UserIDs : List ByteStr := []
  Urgencies : List ByteStr := []
  TimeZone : ByteStr := []
  SortBy : ByteStr := []
  Includes : List ByteStr := []
deriving DecidableEq

/-- Options of the ListIncidentAlerts endpoint (`ListIncidentAlertsOptions`):
statuses (brackets), sort_by, include (brackets), all omitempty. -/
structure ListIncidentAlertsOptions where
  listOpts : APIListObject := {}
  Statuses : List ByteStr := []
  SortBy : ByteStr := []
  Includes : List ByteStr := []
deriving DecidableEq

/-- Options of the ListIncidentLogEntries endpoint
(`ListIncidentLogEntriesOptions`): include (brackets), is_overview,
time_zone, since, until, all omitempty. -/
structure ListIncidentLogEntriesOptions where
  listOpts : APIListObject := {}
  Includes : List ByteStr := []
  IsOverview : Bool := false
  TimeZone : ByteStr := []
  Since : ByteStr := []
  Until : ByteStr := []
deriving DecidableEq

def keyDateRange : ByteStr := asciiBytes "date_range"

def keyIncidentKey : ByteStr := asciiBytes "incident_key"

def keyInclude : ByteStr := asciiBytes "include[]"

def keyIsOverview : ByteStr := asciiBytes "is_overview"

def keyLimit : ByteStr := asciiBytes "limit"

def keyMore : ByteStr := asciiBytes "more"

def keyOffset : ByteStr := asciiBytes "offset"

def keyServiceIds : ByteStr := asciiBytes "service_ids[]"

def keySince : ByteStr := asciiBytes "since"

def keySortBy : ByteStr := asciiBytes "sort_by"

def keyStatuses : ByteStr := asciiBytes "statuses[]"

def keyTeamIds : ByteStr := asciiBytes "team_ids[]"

def keyTimeZone : ByteStr := asciiBytes "time_zone"

def keyTotal : ByteStr := asciiBytes "total"

def keyUntil : ByteStr := asciiBytes "until"

def keyUrgencies : ByteStr := asciiBytes "urgencies[]"

def keyUserIds : ByteStr := asciiBytes "user_ids[]"

/-- The `url.Values` map produced by `query.Values` on `ListIncidentsOptions`.
`query.Values` walks the struct fields and, for each field not at its zero
value ("omitempty"), adds one entry: scalars under their tag key, bracket
slices under `tag[]` with one value per element in order. Since `url.Values`
is a Go map (unordered) and `Encode` emits keys in sorted order, the map is
modelled as an association list already listed in sorted key order. -/
def qvListIncidents (o : ListIncidentsOptions) : List KV :=
  (if o.DateRange = [] then [] else [(keyDateRange, [o.DateRange])]) ++
  (if o.IncidentKey = [] then [] else [(keyIncidentKey, [o.IncidentKey])]) ++
  (if o.Includes = [] then [] else [(keyInclude, o.Includes)]) ++
  (if o.listOpts.Limit = 0 then [] else [(keyLimit, [natToBytes o.listOpts.Limit])]) ++
  (if o.listOpts.More = false then [] else [(keyMore, [trueBytes])]) ++
  (if o.listOpts.Offset = 0 then [] else [(keyOffset, [natToBytes o.listOpts.Offset])]) ++
  (if o.ServiceIDs = [] then [] else [(keyServiceIds, o.ServiceIDs)]) ++
  (if o.Since = [] then [] else [(keySince, [o.Since])]) ++
  (if o.SortBy = [] then [] else [(keySortBy, [o.SortBy])]) ++
  (if o.Statuses = [] then [] else [(keyStatuses, o.Statuses)]) ++
  (if o.TeamIDs = [] then [] else [(keyTeamIds, o.TeamIDs)]) ++
  (if o.TimeZone = [] then [] else [(keyTimeZone, [o.TimeZone])]) ++
  (if o.listOpts.Total = 0 then [] else [(keyTotal, [natToBytes o.listOpts.Total])]) ++
  (if o.Until = [] then [] else [(keyUntil, [o.Until])]) ++
  (if o.Urgencies = [] then [] else [(keyUrgencies, o.Urgencies)]) ++
  (if o.UserIDs = [] then [] else [(keyUserIds, o.UserIDs)])

/-- All possible `url.Values` entries for `ListIncidentsOptions`, in sorted
key order (the superlist of any actual map). -/
def masterListIncidents (o : ListIncidentsOptions) : List KV :=
  [(keyDateRange, [o.DateRange])] ++ [(keyIncidentKey, [o.IncidentKey])] ++
  [(keyInclude, o.Includes)] ++ [(keyLimit, [natToBytes o.listOpts.Limit])] ++
  [(keyMore, [trueBytes])] ++ [(keyOffset, [natToBytes o.listOpts.Offset])] ++
  [(keyServiceIds, o.ServiceIDs)] ++ [(keySince, [o.Since])] ++ [(keySortBy, [o.SortBy])] ++
  [(keyStatuses, o.Statuses)] ++ [(keyTeamIds, o.TeamIDs)] ++ [(keyTimeZone, [o.TimeZone])] ++
  [(keyTotal, [natToBytes o.listOpts.Total])] ++ [(keyUntil, [o.Until])] ++
  [(keyUrgencies, o.Urgencies)] ++ [(keyUserIds, o.UserIDs)]

/-- The url tag keys of `ListIncidentsOptions`, sorted. -/
def liKeys : List ByteStr :=
  [keyDateRange, keyIncidentKey, keyInclude, keyLimit, keyMore, keyOffset,
   keyServiceIds, keySince, keySortBy, keyStatuses, keyTeamIds, keyTimeZone,
   keyTotal, keyUntil, keyUrgencies, keyUserIds]

theorem liKeys_pairwise : liKeys.Pairwise (fun a b => bytesLe a b = true) := by decide

theorem liKeys_nodup : liKeys.Nodup := by decide

theorem ite_omit_sublist (c : Prop) [Decidable c] (e : KV) :
    List.Sublist (if c then ([] : List KV) else [e]) [e] := by
  split
  · exact List.nil_sublist _
  · exact List.Sublist.refl _

theorem qvListIncidents_sublist (o : ListIncidentsOptions) :
    List.Sublist (qvListIncidents o) (masterListIncidents o) := by
  unfold qvListIncidents masterListIncidents
  refine List.Sublist.append ?_ (ite_omit_sublist _ _)
  refine List.Sublist.append ?_ (ite_omit_sublist _ _)
  refine List.Sublist.append ?_ (ite_omit_sublist _ _)
  refine List.Sublist.append ?_ (ite_omit_sublist _ _)
  refine List.Sublist.append ?_ (ite_omit_sublist _ _)
  refine List.Sublist.append ?_ (ite_omit_sublist _ _)
  refine List.Sublist.append ?_ (ite_omit_sublist _ _)
  refine List.Sublist.append ?_ (ite_omit_sublist _ _)
  refine List.Sublist.append ?_ (ite_omit_sublist _ _)
  refine List.Sublist.append ?_ (ite_omit_sublist _ _)
  refine List.Sublist.append ?_ (ite_omit_sublist _ _)
  refine List.Sublist.append ?_ (ite_omit_sublist _ _)
  refine List.Sublist.append ?_ (ite_omit_sublist _ _)
  refine List.Sublist.append ?_ (ite_omit_sublist _ _)
  refine List.Sublist.append ?_ (ite_omit_sublist _ _)
  exact ite_omit_sublist _ _

theorem masterListIncidents_pairwise (o : ListIncidentsOptions) :
    (masterListIncidents o).Pairwise keyLe := by
  have hmap : (masterListIncidents o).map Prod.fst = liKeys := by
    simp only [masterListIncidents, liKeys, List.map_append, List.map_cons, List.map_nil,
      List.singleton_append, List.cons_append, List.nil_append]
  have hm := liKeys_pairwise
  rw [← hmap] at hm
  exact List.Pairwise.of_map Prod.fst (fun a b h => h) hm

theorem qvListIncidents_sorted (o : ListIncidentsOptions) :
    (qvListIncidents o).Sorted keyLe :=
  (masterListIncidents_pairwise o).sublist (qvListIncidents_sublist o)

theorem qvListIncidents_nodupKeys (o : ListIncidentsOptions) :
    ((qvListIncidents o).map Prod.fst).Nodup :=
  liKeys_nodup.sublist ((qvListIncidents_sublist o).map Prod.fst)

/-- Model of `query.Values(o)` followed by `v.Encode()` in
`ListIncidentsWithContext`. -/
def encodeListIncidentsOptions (o : ListIncidentsOptions) : ByteStr :=
  urlValuesEncode (qvListIncidents o)

/-- The `url.Values` map of `ListIncidentAlertsOptions`, sorted key order. -/
def qvListIncidentAlerts (o : ListIncidentAlertsOptions) : List KV :=
  (if o.Includes = [] then [] else [(keyInclude, o.Includes)]) ++
  (if o.listOpts.Limit = 0 then [] else [(keyLimit, [natToBytes o.listOpts.Limit])]) ++
  (if o.listOpts.More = false then [] else [(keyMore, [trueBytes])]) ++
  (if o.listOpts.Offset = 0 then [] else [(keyOffset, [natToBytes o.listOpts.Offset])]) ++
  (if o.SortBy = [] then [] else [(keySortBy, [o.SortBy])]) ++
  (if o.Statuses = [] then [] else [(keyStatuses, o.Statuses)]) ++
  (if o.listOpts.Total = 0 then [] else [(keyTotal, [natToBytes o.listOpts.Total])])

/-- Model of `query.Values(o).Encode()` in `ListIncidentAlertsWithContext`. -/
def encodeListIncidentAlertsOptions (o : ListIncidentAlertsOptions) : ByteStr :=
  urlValuesEncode (qvListIncidentAlerts o)

/-- The `url.Values` map of `ListIncidentLogEntriesOptions`, sorted key
order. -/
def qvListIncidentLogEntries (o : ListIncidentLogEntriesOptions) : List KV :=
  (if o.Includes = [] then [] else [(keyInclude, o.Includes)]) ++
  (if o.IsOverview = false then [] else [(keyIsOverview, [trueBytes])]) ++
  (if o.listOpts.Limit = 0 then [] else [(keyLimit, [natToBytes o.listOpts.Limit])]) ++
  (if o.listOpts.More = false then [] else [(keyMore, [trueBytes])]) ++
  (if o.listOpts.Offset = 0 then [] else [(keyOffset, [natToBytes o.listOpts.Offset])]) ++
  (if o.Since = [] then [] else [(keySince, [o.Since])]) ++
  (if o.TimeZone = [] then [] else [(keyTimeZone, [o.TimeZone])]) ++
  (if o.listOpts.Total = 0 then [] else [(keyTotal, [natToBytes o.listOpts.Total])]) ++
  (if o.Until = [] then [] else [(keyUntil, [o.Until])])

/-- Model of `query.Values(o).Encode()` in `ListIncidentLogEntriesWithContext`. -/
def encodeListIncidentLogEntriesOptions (o : ListIncidentLogEntriesOptions) : ByteStr :=
  urlValuesEncode (qvListIncidentLogEntries o)

theorem sort_qvListIncidents (o : ListIncidentsOptions) :
    List.insertionSort keyLe (qvListIncidents o) = qvListIncidents o :=
  (qvListIncidents_sorted o).insertionSort_eq

/-- Parsing the encoded incidents options recovers the flattened sorted map. -/
theorem parse_encodeListIncidents (o : ListIncidentsOptions) :
    parseQuery (encodeListIncidentsOptions o) = some (flattenVals (qvListIncidents o)) := by
  unfold encodeListIncidentsOptions urlValuesEncode
  rw [sort_qvListIncidents, parseQuery_encodePairs]

example : encodeListIncidentsOptions {} = [] := rfl

example : encodeListIncidentAlertsOptions {} = [] := rfl

example : encodeListIncidentLogEntriesOptions {} = [] := rfl

theorem flattenVals_append (l1 l2 : List KV) :
    flattenVals (l1 ++ l2) = flattenVals l1 ++ flattenVals l2 := by
  induction l1 with
  | nil => rfl
  | cons kv r ih =>
    cases kv
    simp [flattenVals, ih, List.append_assoc]

theorem flattenVals_omit (c : Prop) [Decidable c] (kb : ByteStr) (vs : List ByteStr) :
    flattenVals (if c then [] else [(kb, vs)]) =
      if c then [] else vs.map (fun v => (kb, v)) := by
  split <;> simp [flattenVals]

theorem filter_block_eq (k : ByteStr) (vs : List ByteStr) :
    (vs.map (fun v => (k, v))).filter (fun p => p.1 == k) = vs.map (fun v => (k, v)) := by
  induction vs with
  | nil => rfl
  | cons v vs ih => simp [List.filter_cons, ih]

theorem filter_block_ne (kb k : ByteStr) (hne : kb ≠ k) (vs : List ByteStr) :
    (vs.map (fun v => (kb, v))).filter (fun p => p.1 == k) = [] := by
  have hb : (kb == k) = false := beq_eq_false_iff_ne.mpr hne
  induction vs with
  | nil => rfl
  | cons v vs ih => simp [List.filter_cons, hb, ih]

theorem map_snd_block (k : ByteStr) (vs : List ByteStr) :
    (vs.map (fun v => (k, v))).map Prod.snd = vs := by
  induction vs with
  | nil => rfl
  | cons v vs ih => simp [ih]

/-- Extract every value carried by one key of a query string, in order: the
multi-valued lookup a decoder doing `url.ParseQuery(qs)[key]` performs. -/
def queryGetAll (key : ByteStr) (s : ByteStr) : Option (List ByteStr) :=
  (parseQuery s).map (fun ps => (ps.filter (fun p => p.1 == key)).map Prod.snd)

theorem getAll_Statuses (o : ListIncidentsOptions) :
    queryGetAll keyStatuses (encodeListIncidentsOptions o) = some o.Statuses := by
  rw [queryGetAll, parse_encodeListIncidents, Option.map_some']
  refine congrArg some ?_
  unfold qvListIncidents
  simp only [flattenVals_append, flattenVals_omit, List.filter_append,
    apply_ite (List.filter (fun p : ByteStr × ByteStr => p.1 == keyStatuses)), List.filter_nil,
    filter_block_eq,
    filter_block_ne keyDateRange keyStatuses (by decide),
    filter_block_ne keyIncidentKey keyStatuses (by decide),
    filter_block_ne keyInclude keyStatuses (by decide),
    filter_block_ne keyLimit keyStatuses (by decide),
    filter_block_ne keyMore keyStatuses (by decide),
    filter_block_ne keyOffset keyStatuses (by decide),
    filter_block_ne keyServiceIds keyStatuses (by decide),
    filter_block_ne keySince keyStatuses (by decide),
    filter_block_ne keySortBy keyStatuses (by decide),
    filter_block_ne keyTeamIds keyStatuses (by decide),
    filter_block_ne keyTimeZone keyStatuses (by decide),
    filter_block_ne keyTotal keyStatuses (by decide),
    filter_block_ne keyUntil keyStatuses (by decide),
    filter_block_ne keyUrgencies keyStatuses (by decide),
    filter_block_ne keyUserIds keyStatuses (by decide),
    ite_self, List.append_nil, List.nil_append,
    apply_ite (List.map (Prod.snd : ByteStr × ByteStr → ByteStr)), List.map_nil,
    map_snd_block]
  by_cases h : o.Statuses = [] <;> simp [h]

theorem getAll_ServiceIDs (o : ListIncidentsOptions) :
    queryGetAll keyServiceIds (encodeListIncidentsOptions o) = some o.ServiceIDs := by
  rw [queryGetAll, parse_encodeListIncidents, Option.map_some']
  refine congrArg some ?_
  unfold qvListIncidents
  simp only [flattenVals_append, flattenVals_omit, List.filter_append,
    apply_ite (List.filter (fun p : ByteStr × ByteStr => p.1 == keyServiceIds)), List.filter_nil,
    filter_block_eq,
    filter_block_ne keyDateRange keyServiceIds (by decide),
    filter_block_ne keyIncidentKey keyServiceIds (by decide),
    filter_block_ne keyInclude keyServiceIds (by decide),
    filter_block_ne keyLimit keyServiceIds (by decide),
    filter_block_ne keyMore keyServiceIds (by decide),
    filter_block_ne keyOffset keyServiceIds (by decide),
    filter_block_ne keySince keyServiceIds (by decide),
    filter_block_ne keySortBy keyServiceIds (by decide),
    filter_block_ne keyStatuses keyServiceIds (by decide),
    filter_block_ne keyTeamIds keyServiceIds (by decide),
    filter_block_ne keyTimeZone keyServiceIds (by decide),
    filter_block_ne keyTotal keyServiceIds (by decide),
    filter_block_ne keyUntil keyServiceIds (by decide),
    filter_block_ne keyUrgencies keyServiceIds (by decide),
    filter_block_ne keyUserIds keyServiceIds (by decide),
    ite_self, List.append_nil, List.nil_append,
    apply_ite (List.map (Prod.snd : ByteStr × ByteStr → ByteStr)), List.map_nil,
    map_snd_block]
  by_cases h : o.ServiceIDs = [] <;> simp [h]

theorem getAll_TeamIDs (o : ListIncidentsOptions) :
    queryGetAll keyTeamIds (encodeListIncidentsOptions o) = some o.TeamIDs := by
  rw [queryGetAll, parse_encodeListIncidents, Option.map_some']
  refine congrArg some ?_
  unfold qvListIncidents
  simp only [flattenVals_append, flattenVals_omit, List.filter_append,
    apply_ite (List.filter (fun p : ByteStr × ByteStr => p.1 == keyTeamIds)), List.filter_nil,
    filter_block_eq,
    filter_block_ne keyDateRange keyTeamIds (by decide),
    filter_block_ne keyIncidentKey keyTeamIds (by decide),
    filter_block_ne keyInclude keyTeamIds (by decide),
    filter_block_ne keyLimit keyTeamIds (by decide),
    filter_block_ne keyMore keyTeamIds (by decide),
    filter_block_ne keyOffset keyTeamIds (by decide),
    filter_block_ne keyServiceIds keyTeamIds (by decide),
    filter_block_ne keySince keyTeamIds (by decide),
    filter_block_ne keySortBy keyTeamIds (by decide),
    filter_block_ne keyStatuses keyTeamIds (by decide),
    filter_block_ne keyTimeZone keyTeamIds (by decide),
    filter_block_ne keyTotal keyTeamIds (by decide),
    filter_block_ne keyUntil keyTeamIds (by decide),
    filter_block_ne keyUrgencies keyTeamIds (by decide),
    filter_block_ne keyUserIds keyTeamIds (by decide),
    ite_self, List.append_nil, List.nil_append,
    apply_ite (List.map (Prod.snd : ByteStr × ByteStr → ByteStr)), List.map_nil,
    map_snd_block]
  by_cases h : o.TeamIDs = [] <;> simp [h]

theorem getAll_UserIDs (o : ListIncidentsOptions) :
    queryGetAll keyUserIds (encodeListIncidentsOptions o) = some o.UserIDs := by
  rw [queryGetAll, parse_encodeListIncidents, Option.map_some']
  refine congrArg some ?_
  unfold qvListIncidents
  simp only [flattenVals_append, flattenVals_omit, List.filter_append,
    apply_ite (List.filter (fun p : ByteStr × ByteStr => p.1 == keyUserIds)), List.filter_nil,
    filter_block_eq,
    filter_block_ne keyDateRange keyUserIds (by decide),
    filter_block_ne keyIncidentKey keyUserIds (by decide),
    filter_block_ne keyInclude keyUserIds (by decide),
    filter_block_ne keyLimit keyUserIds (by decide),
    filter_block_ne keyMore keyUserIds (by decide),
    filter_block_ne keyOffset keyUserIds (by decide),
    filter_block_ne keyServiceIds keyUserIds (by decide),
    filter_block_ne keySince keyUserIds (by decide),
    filter_block_ne keySortBy keyUserIds (by decide),
    filter_block_ne keyStatuses keyUserIds (by decide),
    filter_block_ne keyTeamIds keyUserIds (by decide),
    filter_block_ne keyTimeZone keyUserIds (by decide),
    filter_block_ne keyTotal keyUserIds (by decide),
    filter_block_ne keyUntil keyUserIds (by decide),
    filter_block_ne keyUrgencies keyUserIds (by decide),
    ite_self, List.append_nil, List.nil_append,
    apply_ite (List.map (Prod.snd : ByteStr × ByteStr → ByteStr)), List.map_nil,
    map_snd_block]
  by_cases h : o.UserIDs = [] <;> simp [h]

theorem getAll_Urgencies (o : ListIncidentsOptions) :
    queryGetAll keyUrgencies (encodeListIncidentsOptions o) = some o.Urgencies := by
  rw [queryGetAll, parse_encodeListIncidents, Option.map_some']
  refine congrArg some ?_
  unfold qvListIncidents
  simp only [flattenVals_append, flattenVals_omit, List.filter_append,
    apply_ite (List.filter (fun p : ByteStr × ByteStr => p.1 == keyUrgencies)), List.filter_nil,
    filter_block_eq,
    filter_block_ne keyDateRange keyUrgencies (by decide),
    filter_block_ne keyIncidentKey keyUrgencies (by decide),
    filter_block_ne keyInclude keyUrgencies (by decide),
    filter_block_ne keyLimit keyUrgencies (by decide),
    filter_block_ne keyMore keyUrgencies (by decide),
    filter_block_ne keyOffset keyUrgencies (by decide),
    filter_block_ne keyServiceIds keyUrgencies (by decide),
    filter_block_ne keySince keyUrgencies (by decide),
    filter_block_ne keySortBy keyUrgencies (by decide),
    filter_block_ne keyStatuses keyUrgencies (by decide),
    filter_block_ne keyTeamIds keyUrgencies (by decide),
    filter_block_ne keyTimeZone keyUrgencies (by decide),
    filter_block_ne keyTotal keyUrgencies (by decide),
    filter_block_ne keyUntil keyUrgencies (by decide),
    filter_block_ne keyUserIds keyUrgencies (by decide),
    ite_self, List.append_nil, List.nil_append,
    apply_ite (List.map (Prod.snd : ByteStr × ByteStr → ByteStr)), List.map_nil,
    map_snd_block]
  by_cases h : o.Urgencies = [] <;> simp [h]

theorem getAll_Includes (o : ListIncidentsOptions) :
    queryGetAll keyInclude (encodeListIncidentsOptions o) = some o.Includes := by
  rw [queryGetAll, parse_encodeListIncidents, Option.map_some']
  refine congrArg some ?_
  unfold qvListIncidents
  simp only [flattenVals_append, flattenVals_omit, List.filter_append,
    apply_ite (List.filter (fun p : ByteStr × ByteStr => p.1 == keyInclude)), List.filter_nil,
    filter_block_eq,
    filter_block_ne keyDateRange keyInclude (by decide),
    filter_block_ne keyIncidentKey keyInclude (by decide),
    filter_block_ne keyLimit keyInclude (by decide),
    filter_block_ne keyMore keyInclude (by decide),
    filter_block_ne keyOffset keyInclude (by decide),
    filter_block_ne keyServiceIds keyInclude (by decide),
    filter_block_ne keySince keyInclude (by decide),
    filter_block_ne keySortBy keyInclude (by decide),
    filter_block_ne keyStatuses keyInclude (by decide),
    filter_block_ne keyTeamIds keyInclude (by decide),
    filter_block_ne keyTimeZone keyInclude (by decide),
    filter_block_ne keyTotal keyInclude (by decide),
    filter_block_ne keyUntil keyInclude (by decide),
    filter_block_ne keyUrgencies keyInclude (by decide),
    filter_block_ne keyUserIds keyInclude (by decide),
    ite_self, List.append_nil, List.nil_append,
    apply_ite (List.map (Prod.snd : ByteStr × ByteStr → ByteStr)), List.map_nil,
    map_snd_block]
  by_cases h : o.Includes = [] <;> simp [h]

theorem countP_of_getAll (k s : ByteStr) (l : List ByteStr)
    (h : queryGetAll k s = some l) :
    ((parseQuery s).getD []).countP (fun p => p.1 == k) = l.length := by
  unfold queryGetAll at h
  cases hp : parseQuery s with
  | none => rw [hp] at h; simp at h
  | some ps =>
    rw [hp] at h
    rw [Option.map_some'] at h
    have hl : (ps.filter (fun p => p.1 == k)).map Prod.snd = l := by
      injection h
    rw [Option.getD_some, ← hl, List.length_map, List.countP_eq_length_filter]

/-- Claim C4: a list-options value with every field at its zero value encodes
to the empty query string, for each of the three list endpoints' option
structs (`ListIncidentsOptions`, `ListIncidentAlertsOptions`,
`ListIncidentLogEntriesOptions`): every field is tagged omitempty, so nothing
is emitted. -/
theorem claim_C4_zero_options_encode_empty :
    encodeListIncidentsOptions {} = [] ∧
    encodeListIncidentAlertsOptions {} = [] ∧
    encodeListIncidentLogEntriesOptions {} = [] :=
  ⟨rfl, rfl, rfl⟩

/-- Claim C5: for every sequence-valued filter field of
`ListIncidentsOptions` (statuses, service/team/user IDs, urgencies,
includes), the encoded query string carries exactly one bracketed
`key[]=value` pair per element — the multi-valued lookup of the bracket key
on the parsed query returns exactly the field's elements, in input order
(hence exactly n pairs for n elements), and in particular decoding the
emitted query string reproduces the original filter sequence. -/
theorem claim_C5_bracket_fields_count_order_roundtrip (o : ListIncidentsOptions) :
    (queryGetAll keyStatuses (encodeListIncidentsOptions o) = some o.Statuses ∧
      ((parseQuery (encodeListIncidentsOptions o)).getD []).countP
        (fun p => p.1 == keyStatuses) = o.Statuses.length) ∧
    (queryGetAll keyServiceIds (encodeListIncidentsOptions o) = some o.ServiceIDs ∧
      ((parseQuery (encodeListIncidentsOptions o)).getD []).countP
        (fun p => p.1 == keyServiceIds) = o.ServiceIDs.length) ∧
    (queryGetAll keyTeamIds (encodeListIncidentsOptions o) = some o.TeamIDs ∧
      ((parseQuery (encodeListIncidentsOptions o)).getD []).countP
        (fun p => p.1 == keyTeamIds) = o.TeamIDs.length) ∧
    (queryGetAll keyUserIds (encodeListIncidentsOptions o) = some o.UserIDs ∧
      ((parseQuery (encodeListIncidentsOptions o)).getD []).countP
        (fun p => p.1 == keyUserIds) = o.UserIDs.length) ∧
    (queryGetAll keyUrgencies (encodeListIncidentsOptions o) = some o.Urgencies ∧
      ((parseQuery (encodeListIncidentsOptions o)).getD []).countP
        (fun p => p.1 == keyUrgencies) = o.Urgencies.length) ∧
    (queryGetAll keyInclude (encodeListIncidentsOptions o) = some o.Includes ∧
      ((parseQuery (encodeListIncidentsOptions o)).getD []).countP
        (fun p => p.1 == keyInclude) = o.Includes.length) :=
  ⟨⟨getAll_Statuses o, countP_of_getAll _ _ _ (getAll_Statuses o)⟩,
   ⟨getAll_ServiceIDs o, countP_of_getAll _ _ _ (getAll_ServiceIDs o)⟩,
   ⟨getAll_TeamIDs o, countP_of_getAll _ _ _ (getAll_TeamIDs o)⟩,
   ⟨getAll_UserIDs o, countP_of_getAll _ _ _ (getAll_UserIDs o)⟩,
   ⟨getAll_Urgencies o, countP_of_getAll _ _ _ (getAll_Urgencies o)⟩,
   ⟨getAll_Includes o, countP_of_getAll _ _ _ (getAll_Includes o)⟩⟩

/-- Claim C6: query encoding is deterministic. The only nondeterminism in
`query.Values` + `url.Values.Encode` is the iteration order of the
`url.Values` map; whatever association-list views two runs observe (any
permutations of the map entries), `Encode`'s key sort makes both runs emit
byte-identical query strings, equal to the canonical encoding. -/
theorem claim_C6_encode_deterministic (o : ListIncidentsOptions) (m1 m2 : List KV)
    (h1 : m1.Perm (qvListIncidents o)) (h2 : m2.Perm (qvListIncidents o)) :
    urlValuesEncode m1 = urlValuesEncode m2 ∧
    urlValuesEncode m1 = encodeListIncidentsOptions o := by
  have e1 : urlValuesEncode m1 = encodeListIncidentsOptions o :=
    urlValuesEncode_perm m1 (qvListIncidents o) h1 (qvListIncidents_nodupKeys o)
  have e2 : urlValuesEncode m2 = encodeListIncidentsOptions o :=
    urlValuesEncode_perm m2 (qvListIncidents o) h2 (qvListIncidents_nodupKeys o)
  exact ⟨e1.trans e2.symm, e1⟩

/-- Witness for C6 at a concrete options value with two map orders. -/
theorem claim_C6_encode_deterministic_witness :
    urlValuesEncode [(keyStatuses, [asciiBytes "triggered"]), (keyLimit, [natToBytes 5])] =
      urlValuesEncode [(keyLimit, [natToBytes 5]), (keyStatuses, [asciiBytes "triggered"])] ∧
    urlValuesEncode [(keyStatuses, [asciiBytes "triggered"]), (keyLimit, [natToBytes 5])] =
      encodeListIncidentsOptions
        { listOpts := { Limit := 5 }, Statuses := [asciiBytes "triggered"] } :=
  claim_C6_encode_deterministic
    { listOpts := { Limit := 5 }, Statuses := [asciiBytes "triggered"] }
    _ _ (by decide) (by decide)

/-- A JSON document. Numbers are modelled as integers (every numeric field
this client exchanges is integral). Go struct field names that are reserved
words in Lean are rendered with a trailing underscore (Go `Type` becomes
`Type_`). -/
inductive Json where
  | null
  | bool (b : Bool)
  | num (n : Int)
  | str (s : String)
  | arr (xs : List Json)
  | obj (kvs : List (String × Json))

/-- ASCII case folding of one character; Go's `encoding/json` matches struct
field keys case-insensitively (the keys of this client are ASCII). -/
def foldChar (c : Char) : Char :=
  if 65 ≤ c.toNat ∧ c.toNat ≤ 90 then Char.ofNat (c.toNat + 32) else c

/-- Case-insensitive key comparison used by struct field matching. -/
def equalFold (a b : String) : Bool :=
  a.data.map foldChar == b.data.map foldChar

/-- The JSON object entry a struct field with key `key` receives: the last
entry whose key matches case-insensitively (later duplicate keys overwrite
earlier assignments in `encoding/json`). -/
def lookupField (key : String) (kvs : List (String × Json)) : Option Json :=
  ((kvs.filter (fun kv => equalFold kv.1 key)).getLast?).map Prod.snd

/-- Exact-key lookup with last-occurrence-wins, as a decoded Go map behaves. -/
def mapLookup {α : Type} (key : String) (m : List (String × α)) : Option α :=
  ((m.filter (fun kv => kv.1 == key)).getLast?).map Prod.snd

/-- Expect a JSON object (`json: cannot unmarshal` otherwise). -/
def asObjKvs : Json → Except String (List (String × Json))
  | .obj kvs => .ok kvs
  | _ => .error "json: cannot unmarshal value into Go struct"

/-- Unmarshal a JSON value into a string field. -/
def asStr : Json → Except String String
  | .str s => .ok s
  | _ => .error "json: cannot unmarshal value into Go string field"

/-- Unmarshal a JSON value into a uint field. -/
def asUint : Json → Except String Nat
  | .num n => if n < 0 then .error "json: cannot unmarshal negative number into uint" else .ok n.toNat
  | _ => .error "json: cannot unmarshal value into Go uint field"

/-- Unmarshal a JSON value into a bool field. -/
def asBool : Json → Except String Bool
  | .bool b => .ok b
  | _ => .error "json: cannot unmarshal value into Go bool field"

/-- Unmarshal a JSON array elementwise into a slice field. -/
def asArr {α : Type} (f : Json → Except String α) : Json → Except String (List α)
  | .arr xs => xs.mapM f
  | _ => .error "json: cannot unmarshal value into Go slice field"

/-- Read one struct field from an object: an absent key or a JSON null leaves
the zero value, otherwise the value is unmarshalled. -/
def fieldOr {α : Type} (zero : α) (f : Json → Except String α)
    (kvs : List (String × Json)) (key : String) : Except String α :=
  match lookupField key kvs with
  | none => .ok zero
  | some .null => .ok zero
  | some v => f v

/-- Unmarshal into a Go `map[string]T`: the value must be an object (or null,
giving the nil map); every entry value is unmarshalled. -/
def unmarshalStringMap {α : Type} (f : Json → Except String α) :
    Json → Except String (List (String × α))
  | .null => .ok []
  | .obj kvs => kvs.mapM (fun kv => (f kv.2).map (fun v => (kv.1, v)))
  | _ => .error "json: cannot unmarshal value into Go map"

/-- Modelled from the spec: the generic API reference object (`APIObject` of
`client.go`, not part of the embedded source file). The spec uses it for
every entity reference (assignee, service, team, acknowledger, note author);
its summary is the human identifier that note creation uses for attribution.
JSON keys: id, type, summary, self, html_url, all omitempty. -/
structure APIObject where
  ID : String := ""
  Type_ : String := ""
  Summary : String := ""
  Self : String := ""
  HTMLURL : String := ""
deriving DecidableEq

/-- Modelled from the spec: a minimal typed reference (`APIReference` of
`client.go`): an id plus a type tag. JSON keys id, type, omitempty. -/
structure APIReference where
  ID : String := ""
  Type_ : String := ""
deriving DecidableEq

/-- Modelled from the spec: a typed free-text payload (`APIDetails` of
`client.go`), used for the incident body on creation. JSON keys type,
details, omitempty. -/
structure APIDetails where
  Type_ : String := ""
  Details : String := ""
deriving DecidableEq

/-- Modelled from the spec: the common part of a log entry
(`CommonLogEntryField` of `log_entry.go`, not part of the embedded file).
The spec does not detail log entries; they are modelled as the generic API
object. -/
structure CommonLogEntryField where
  apiObject : APIObject := {}
deriving DecidableEq

/-- Modelled from the spec: a log entry (`LogEntry` of `log_entry.go`). -/
structure LogEntry where
  common : CommonLogEntryField := {}
deriving DecidableEq

/-- Modelled from the spec: a user entity (`User` of `user.go`); only its
generic reference part matters to responder requests. -/
structure User where
  apiObject : APIObject := {}
deriving DecidableEq

/-- Acknowledgement of an incident: at, acknowledger (omitempty). -/
structure Acknowledgement where
  At : String := ""
  Acknowledger : APIObject := {}
deriving DecidableEq

/-- A pending action on an incident: type, at (omitempty). -/
structure PendingAction where
  Type_ : String := ""
  At : String := ""
deriving DecidableEq

/-- An assignment of an incident: at, assignee (omitempty). -/
structure Assignment where
  At : String := ""
  Assignee : APIObject := {}
deriving DecidableEq

/-- Alert counts by status: triggered, resolved, all (omitempty). -/
structure AlertCounts where
  Triggered : Nat := 0
  Resolved : Nat := 0
  All : Nat := 0
deriving DecidableEq

/-- Priority of an incident: embedded APIObject, name, description. -/
structure Priority where
  apiObject : APIObject := {}
  Name : String := ""
  Description : String := ""
deriving DecidableEq

/-- Reason an incident was resolved: type (omitempty), incident (always). -/
structure ResolveReason where
  Type_ : String := ""
  Incident : APIObject := {}
deriving DecidableEq

/-- Data describing the incident: type, details (omitempty). -/
structure IncidentBody where
  Type_ : String := ""
  Details : String := ""
deriving DecidableEq

/-- An individual assigned to an incident (JSON key assignee, always
emitted). -/
structure Assignee where
  Assignee : APIObject := {}
deriving DecidableEq

/-- The first trigger log entry: embedded common log entry fields plus an
incident reference (omitempty). -/
structure FirstTriggerLogEntry where
  common : CommonLogEntryField := {}
  Incident : APIObject := {}
deriving DecidableEq

/-- Conference bridge info: conference_number, conference_url (omitempty). -/
structure ConferenceBridge where
  ConferenceNumber : String := ""
  ConferenceURL : String := ""
deriving DecidableEq

/-- An incident. The embedded `APIObject` is the field `apiObject`; its
promoted `id` key is shadowed by the incident's own `Id` field (depth rule of
`encoding/json`). -/
structure Incident where
  apiObject : APIObject := {}
  IncidentNumber : Nat := 0
  Title : String := ""
  Description : String := ""
  CreatedAt : String := ""
  PendingActions : List PendingAction := []
  IncidentKey : String := ""
  Service : APIObject := {}
  Assignments : List Assignment := []
  Acknowledgements : List Acknowledgement := []
  LastStatusChangeAt : String := ""
  LastStatusChangeBy : APIObject := {}
  FirstTriggerLogEntry : FirstTriggerLogEntry := {}
  EscalationPolicy : APIObject := {}
  Teams : List APIObject := []
  Priority : Option Priority := none
  Urgency : String := ""
  Status : String := ""
  Id : String := ""
  ResolveReason : ResolveReason := {}
  AlertCounts : AlertCounts := {}
  Body : IncidentBody := {}
  IsMergeable : Bool := false
  ConferenceBridge : Option ConferenceBridge := none
deriving DecidableEq

/-- Response of the ListIncidents endpoint: pagination plus incidents. -/
structure ListIncidentsResponse where
  listOpts : APIListObject := {}
  Incidents : List Incident := []
deriving DecidableEq

/-- Envelope returned when creating (or merging or snoozing) an incident. -/
structure createIncidentResponse where
  Incident : Incident := {}
deriving DecidableEq

/-- Payload for the CreateIncident endpoint. Pointer fields are options. -/
structure CreateIncidentOptions where
  Type_ : String := ""
  Title : String := ""
  Service : Option APIReference := none
  Priority : Option APIReference := none
  Urgency : String := ""
  IncidentKey : String := ""
  Body : Option APIDetails := none
  EscalationPolicy : Option APIReference := none
  Assignments : List Assignee := []
deriving DecidableEq

/-- One mutation descriptor of the ManageIncidents endpoint. -/
structure ManageIncidentsOptions where
  ID : String := ""
  Type_ : String := ""
  Status : String := ""
  Priority : Option APIReference := none
  Assignments : List Assignee := []
  Resolution : String := ""
deriving DecidableEq

/-- One source incident descriptor of the MergeIncidents endpoint. -/
structure MergeIncidentsOptions where
  ID : String := ""
  Type_ : String := ""
deriving DecidableEq

/-- A note on an incident: id, user, content, created_at (omitempty). -/
structure IncidentNote where
  ID : String := ""
  User : APIObject := {}
  Content : String := ""
  CreatedAt : String := ""
deriving DecidableEq

/-- Envelope returned when creating an incident note (key note). -/
structure CreateIncidentNoteResponse where
  IncidentNote : IncidentNote := {}
deriving DecidableEq

/-- An alert of an incident; its body is an opaque JSON object owned by the
originating integration. -/
structure IncidentAlert where
  apiObject : APIObject := {}
  CreatedAt : String := ""
  Status : String := ""
  AlertKey : String := ""
  Service : APIObject := {}
  Body : List (String × Json) := []
  Incident : APIReference := {}
  Suppressed : Bool := false
  Severity : String := ""
  Integration : APIObject := {}

/-- Envelope of a single incident alert (pointer field, key alert). -/
structure IncidentAlertResponse where
  IncidentAlert : Option IncidentAlert := none

/-- A plain list of alerts (key alerts), the ManageIncidentAlerts payload. -/
structure IncidentAlertList where
  Alerts : List IncidentAlert := []

/-- Response of the ListAlerts endpoint: pagination plus alerts. -/
structure ListAlertsResponse where
  listOpts : APIListObject := {}
  Alerts : List IncidentAlert := []

/-- Response of the ListIncidentLogEntries endpoint. -/
structure ListIncidentLogEntriesResponse where
  listOpts : APIListObject := {}
  LogEntries : List LogEntry := []
deriving DecidableEq

/-- Details about responders to an incident (all keys always emitted). -/
structure IncidentResponders where
  State : String := ""
  User : APIObject := {}
  Incident : APIObject := {}
  UpdatedAt : String := ""
  Message : String := ""
  Requester : APIObject := {}
  RequestedAt : String := ""
deriving DecidableEq

/-- An individual target of a responder request: embedded APIObject plus the
per-target responder states (key incident_responders). -/
structure ResponderRequestTarget where
  apiObject : APIObject := {}
  Responders : IncidentResponders := {}
deriving DecidableEq

/-- Wrapper of a responder request target (key responder_request_target). -/
structure ResponderRequestTargets where
  Target : ResponderRequestTarget := {}
deriving DecidableEq

/-- Input of the ResponderRequest endpoint; `From` carries the json tag "-"
and is never marshalled (it feeds the attribution header instead). -/
structure ResponderRequestOptions where
  From : String := ""
  Message : String := ""
  RequesterID : String := ""
  Targets : List ResponderRequestTarget := []
deriving DecidableEq

/-- An incident responder request. -/
structure ResponderRequest where
  Incident : Incident := {}
  Requester : User := {}
  RequestedAt : String := ""
  Message : String := ""
  Targets : ResponderRequestTargets := {}
deriving DecidableEq

/-- Envelope of the responder request response (key responder_request). -/
structure ResponderRequestResponse where
  ResponderRequest : ResponderRequest := {}
deriving DecidableEq

/-- Read the promoted `APIObject` fields out of an object's entries. -/
def apiObjectOfKvs (kvs : List (String × Json)) : Except String APIObject := do
  let id ← fieldOr "" asStr kvs "id"
  let ty ← fieldOr "" asStr kvs "type"
  let su ← fieldOr "" asStr kvs "summary"
  let se ← fieldOr "" asStr kvs "self"
  let ht ← fieldOr "" asStr kvs "html_url"
  return { ID := id, Type_ := ty, Summary := su, Self := se, HTMLURL := ht }

def unmarshalAPIObject (j : Json) : Except String APIObject := do
  apiObjectOfKvs (← asObjKvs j)

def unmarshalAPIReference (j : Json) : Except String APIReference := do
  let kvs ← asObjKvs j
  let id ← fieldOr "" asStr kvs "id"
  let ty ← fieldOr "" asStr kvs "type"
  return { ID := id, Type_ := ty }

def unmarshalPendingAction (j : Json) : Except String PendingAction := do
  let kvs ← asObjKvs j
  let ty ← fieldOr "" asStr kvs "type"
  let at_ ← fieldOr "" asStr kvs "at"
  return { Type_ := ty, At := at_ }

def unmarshalAssignment (j : Json) : Except String Assignment := do
  let kvs ← asObjKvs j
  let at_ ← fieldOr "" asStr kvs "at"
  let asg ← fieldOr {} unmarshalAPIObject kvs "assignee"
  return { At := at_, Assignee := asg }

def unmarshalAcknowledgement (j : Json) : Except String Acknowledgement := do
  let kvs ← asObjKvs j
  let at_ ← fieldOr "" asStr kvs "at"
  let ack ← fieldOr {} unmarshalAPIObject kvs "acknowledger"
  return { At := at_, Acknowledger := ack }

def unmarshalAlertCounts (j : Json) : Except String AlertCounts := do
  let kvs ← asObjKvs j
  let tr ← fieldOr 0 asUint kvs "triggered"
  let re ← fieldOr 0 asUint kvs "resolved"
  let al ← fieldOr 0 asUint kvs "all"
  return { Triggered := tr, Resolved := re, All := al }

def unmarshalPriority (j : Json) : Except String Priority := do
  let kvs ← asObjKvs j
  let obj ← apiObjectOfKvs kvs
  let nm ← fieldOr "" asStr kvs "name"
  let de ← fieldOr "" asStr kvs "description"
  return { apiObject := obj, Name := nm, Description := de }

def unmarshalResolveReason (j : Json) : Except String ResolveReason := do
  let kvs ← asObjKvs j
  let ty ← fieldOr "" asStr kvs "type"
  let inc ← fieldOr {} unmarshalAPIObject kvs "incident"
  return { Type_ := ty, Incident := inc }

def unmarshalIncidentBody (j : Json) : Except String IncidentBody := do
  let kvs ← asObjKvs j
  let ty ← fieldOr "" asStr kvs "type"
  let de ← fieldOr "" asStr kvs "details"
  return { Type_ := ty, Details := de }

def unmarshalConferenceBridge (j : Json) : Except String ConferenceBridge := do
  let kvs ← asObjKvs j
  let nu ← fieldOr "" asStr kvs "conference_number"
  let ur ← fieldOr "" asStr kvs "conference_url"
  return { ConferenceNumber := nu, ConferenceURL := ur }

def unmarshalCommonLogEntryField (j : Json) : Except String CommonLogEntryField := do
  let kvs ← asObjKvs j
  let obj ← apiObjectOfKvs kvs
  return { apiObject := obj }

def unmarshalFirstTriggerLogEntry (j : Json) : Except String FirstTriggerLogEntry := do
  let kvs ← asObjKvs j
  let obj ← apiObjectOfKvs kvs
  let inc ← fieldOr {} unmarshalAPIObject kvs "incident"
  return { common := { apiObject := obj }, Incident := inc }

def unmarshalLogEntry (j : Json) : Except String LogEntry := do
  let kvs ← asObjKvs j
  let obj ← apiObjectOfKvs kvs
  return { common := { apiObject := obj } }

def unmarshalUser (j : Json) : Except String User := do
  let kvs ← asObjKvs j
  let obj ← apiObjectOfKvs kvs
  return { apiObject := obj }

/-- Unmarshal an incident. The promoted `id` key of the embedded `APIObject`
is shadowed by the incident's own `Id` field, so the embedded object keeps a
zero id. -/
def unmarshalIncident (j : Json) : Except String Incident := do
  let kvs ← asObjKvs j
  let ty ← fieldOr "" asStr kvs "type"
  let su ← fieldOr "" asStr kvs "summary"
  let se ← fieldOr "" asStr kvs "self"
  let ht ← fieldOr "" asStr kvs "html_url"
  let num ← fieldOr 0 asUint kvs "incident_number"
  let ti ← fieldOr "" asStr kvs "title"
  let de ← fieldOr "" asStr kvs "description"
  let ca ← fieldOr "" asStr kvs "created_at"
  let pa ← fieldOr [] (asArr unmarshalPendingAction) kvs "pending_actions"
  let ik ← fieldOr "" asStr kvs "incident_key"
  let sv ← fieldOr {} unmarshalAPIObject kvs "service"
  let asg ← fieldOr [] (asArr unmarshalAssignment) kvs "assignments"
  let ack ← fieldOr [] (asArr unmarshalAcknowledgement) kvs "acknowledgements"
  let lsca ← fieldOr "" asStr kvs "last_status_change_at"
  let lscb ← fieldOr {} unmarshalAPIObject kvs "last_status_change_by"
  let ftle ← fieldOr {} unmarshalFirstTriggerLogEntry kvs "first_trigger_log_entry"
  let ep ← fieldOr {} unmarshalAPIObject kvs "escalation_policy"
  let te ← fieldOr [] (asArr unmarshalAPIObject) kvs "teams"
  let pr ← fieldOr none (fun v => (unmarshalPriority v).map some) kvs "priority"
  let ur ← fieldOr "" asStr kvs "urgency"
  let st ← fieldOr "" asStr kvs "status"
  let id ← fieldOr "" asStr kvs "id"
  let rr ← fieldOr {} unmarshalResolveReason kvs "resolve_reason"
  let ac ← fieldOr {} unmarshalAlertCounts kvs "alert_counts"
  let bo ← fieldOr {} unmarshalIncidentBody kvs "body"
  let im ← fieldOr false asBool kvs "is_mergeable"
  let cb ← fieldOr none (fun v => (unmarshalConferenceBridge v).map some) kvs "conference_bridge"
  return { apiObject := { Type_ := ty, Summary := su, Self := se, HTMLURL := ht },
           IncidentNumber := num, Title := ti, Description := de, CreatedAt := ca,
           PendingActions := pa, IncidentKey := ik, Service := sv, Assignments := asg,
           Acknowledgements := ack, LastStatusChangeAt := lsca, LastStatusChangeBy := lscb,
           FirstTriggerLogEntry := ftle, EscalationPolicy := ep, Teams := te,
           Priority := pr, Urgency := ur, Status := st, Id := id, ResolveReason := rr,
           AlertCounts := ac, Body := bo, IsMergeable := im, ConferenceBridge := cb }

def unmarshalIncidentNote (j : Json) : Except String IncidentNote := do
  let kvs ← asObjKvs j
  let id ← fieldOr "" asStr kvs "id"
  let us ← fieldOr {} unmarshalAPIObject kvs "user"
  let co ← fieldOr "" asStr kvs "content"
  let ca ← fieldOr "" asStr kvs "created_at"
  return { ID := id, User := us, Content := co, CreatedAt := ca }

/-- Unmarshal an opaque JSON object field (`map[string]interface{}`). -/
def asJsonMap : Json → Except String (List (String × Json))
  | .obj kvs => .ok kvs
  | _ => .error "json: cannot unmarshal value into Go map field"

def unmarshalIncidentAlert (j : Json) : Except String IncidentAlert := do
  let kvs ← asObjKvs j
  let obj ← apiObjectOfKvs kvs
  let ca ← fieldOr "" asStr kvs "created_at"
  let st ← fieldOr "" asStr kvs "status"
  let ak ← fieldOr "" asStr kvs "alert_key"
  let sv ← fieldOr {} unmarshalAPIObject kvs "service"
  let bo ← fieldOr [] asJsonMap kvs "body"
  let inc ← fieldOr {} unmarshalAPIReference kvs "incident"
  let su ← fieldOr false asBool kvs "suppressed"
  let sev ← fieldOr "" asStr kvs "severity"
  let ig ← fieldOr {} unmarshalAPIObject kvs "integration"
  return { apiObject := obj, CreatedAt := ca, Status := st, AlertKey := ak, Service := sv,
           Body := bo, Incident := inc, Suppressed := su, Severity := sev, Integration := ig }

def unmarshalIncidentResponders (j : Json) : Except String IncidentResponders := do
  let kvs ← asObjKvs j
  let st ← fieldOr "" asStr kvs "state"
  let us ← fieldOr {} unmarshalAPIObject kvs "user"
  let inc ← fieldOr {} unmarshalAPIObject kvs "incident"
  let ua ← fieldOr "" asStr kvs "updated_at"
  let me ← fieldOr "" asStr kvs "message"
  let rq ← fieldOr {} unmarshalAPIObject kvs "requester"
  let ra ← fieldOr "" asStr kvs "requested_at"
  return { State := st, User := us, Incident := inc, UpdatedAt := ua, Message := me,
           Requester := rq, RequestedAt := ra }

def unmarshalResponderRequestTarget (j : Json) : Except String ResponderRequestTarget := do
  let kvs ← asObjKvs j
  let obj ← apiObjectOfKvs kvs
  let rs ← fieldOr {} unmarshalIncidentResponders kvs "incident_responders"
  return { apiObject := obj, Responders := rs }

def unmarshalResponderRequestTargets (j : Json) : Except String ResponderRequestTargets := do
  let kvs ← asObjKvs j
  let tg ← fieldOr {} unmarshalResponderRequestTarget kvs "responder_request_target"
  return { Target := tg }

def unmarshalResponderRequest (j : Json) : Except String ResponderRequest := do
  let kvs ← asObjKvs j
  let inc ← fieldOr {} unmarshalIncident kvs "incident"
  let rq ← fieldOr {} unmarshalUser kvs "requester"
  let ra ← fieldOr "" asStr kvs "request_at"
  let me ← fieldOr "" asStr kvs "message"
  let tg ← fieldOr {} unmarshalResponderRequestTargets kvs "responder_request_targets"
  return { Incident := inc, Requester := rq, RequestedAt := ra, Message := me, Targets := tg }

/-- Read the promoted `APIListObject` pagination fields out of an object. -/
def apiListObjectOfKvs (kvs : List (String × Json)) : Except String APIListObject := do
  let li ← fieldOr 0 asUint kvs "limit"
  let of_ ← fieldOr 0 asUint kvs "offset"
  let mo ← fieldOr false asBool kvs "more"
  let to_ ← fieldOr 0 asUint kvs "total"
  return { Limit := li, Offset := of_, More := mo, Total := to_ }

/-- Decode of `ListIncidentsResponse` (struct target: a missing incidents key
silently leaves the zero slice). -/
def decodeListIncidentsResponse (j : Json) : Except String ListIncidentsResponse := do
  let kvs ← asObjKvs j
  let lo ← apiListObjectOfKvs kvs
  let incs ← fieldOr [] (asArr unmarshalIncident) kvs "incidents"
  return { listOpts := lo, Incidents := incs }

/-- Decode of `createIncidentResponse` (struct target: a missing incident key
silently leaves the zero incident). -/
def decodeCreateIncidentResponse (j : Json) : Except String createIncidentResponse := do
  let kvs ← asObjKvs j
  let inc ← fieldOr {} unmarshalIncident kvs "incident"
  return { Incident := inc }

/-- Decode of `CreateIncidentNoteResponse` (struct target: a missing note key
silently leaves the zero note). -/
def decodeCreateIncidentNoteResponse (j : Json) : Except String CreateIncidentNoteResponse := do
  let kvs ← asObjKvs j
  let no ← fieldOr {} unmarshalIncidentNote kvs "note"
  return { IncidentNote := no }

/-- Decode of `IncidentAlertResponse` (pointer field: a missing alert key
silently leaves a nil alert). -/
def decodeIncidentAlertResponse (j : Json) : Except String IncidentAlertResponse := do
  let kvs ← asObjKvs j
  let al ← fieldOr none (fun v => (unmarshalIncidentAlert v).map some) kvs "alert"
  return { IncidentAlert := al }

/-- Decode of `ListAlertsResponse`. -/
def decodeListAlertsResponse (j : Json) : Except String ListAlertsResponse := do
  let kvs ← asObjKvs j
  let lo ← apiListObjectOfKvs kvs
  let al ← fieldOr [] (asArr unmarshalIncidentAlert) kvs "alerts"
  return { listOpts := lo, Alerts := al }

/-- Decode of `ListIncidentLogEntriesResponse`. -/
def decodeListIncidentLogEntriesResponse (j : Json) :
    Except String ListIncidentLogEntriesResponse := do
  let kvs ← asObjKvs j
  let lo ← apiListObjectOfKvs kvs
  let le ← fieldOr [] (asArr unmarshalLogEntry) kvs "log_entries"
  return { listOpts := lo, LogEntries := le }

/-- Decode of `ResponderRequestResponse` (struct target: a missing
responder_request key silently leaves the zero value). -/
def decodeResponderRequestResponse (j : Json) : Except String ResponderRequestResponse := do
  let kvs ← asObjKvs j
  let rr ← fieldOr {} unmarshalResponderRequest kvs "responder_request"
  return { ResponderRequest := rr }

/-- One optional string entry of a marshalled object (omitempty). -/
def strOpt (key : String) (s : String) : List (String × Json) :=
  if s = "" then [] else [(key, .str s)]

/-- The promoted, all-omitempty `APIObject` entries of a marshalled object. -/
def apiObjectEntries (o : APIObject) : List (String × Json) :=
  strOpt "id" o.ID ++ strOpt "type" o.Type_ ++ strOpt "summary" o.Summary ++
  strOpt "self" o.Self ++ strOpt "html_url" o.HTMLURL

def encodeAPIObject (o : APIObject) : Json :=
  .obj (apiObjectEntries o)

def encodeAPIReference (o : APIReference) : Json :=
  .obj (strOpt "id" o.ID ++ strOpt "type" o.Type_)

def encodeAPIDetails (o : APIDetails) : Json :=
  .obj (strOpt "type" o.Type_ ++ strOpt "details" o.Details)

/-- A non-omitempty pointer field: nil marshals as null. -/
def refOrNull : Option APIReference → Json
  | none => .null
  | some r => encodeAPIReference r

def encodeAssignee (o : Assignee) : Json :=
  .obj [("assignee", encodeAPIObject o.Assignee)]

/-- Marshal of `IncidentNote`; the user field is a struct, on which omitempty
has no effect, so it is always emitted. -/
def encodeIncidentNote (o : IncidentNote) : Json :=
  .obj (strOpt "id" o.ID ++ [("user", encodeAPIObject o.User)] ++
    strOpt "content" o.Content ++ strOpt "created_at" o.CreatedAt)

def encodeCreateIncidentOptions (o : CreateIncidentOptions) : Json :=
  .obj ([("type", .str o.Type_), ("title", .str o.Title),
    ("service", refOrNull o.Service), ("priority", refOrNull o.Priority)] ++
    strOpt "urgency" o.Urgency ++ strOpt "incident_key" o.IncidentKey ++
    (match o.Body with | none => [] | some b => [("body", encodeAPIDetails b)]) ++
    (match o.EscalationPolicy with
     | none => []
     | some r => [("escalation_policy", encodeAPIReference r)]) ++
    (if o.Assignments.isEmpty then []
     else [("assignments", .arr (o.Assignments.map encodeAssignee))]))

def encodeManageIncidentsOptions (o : ManageIncidentsOptions) : Json :=
  .obj ([("id", .str o.ID), ("type", .str o.Type_)] ++ strOpt "status" o.Status ++
    (match o.Priority with | none => [] | some p => [("priority", encodeAPIReference p)]) ++
    (if o.Assignments.isEmpty then []
     else [("assignments", .arr (o.Assignments.map encodeAssignee))]) ++
    strOpt "resolution" o.Resolution)

def encodeMergeIncidentsOptions (o : MergeIncidentsOptions) : Json :=
  .obj [("id", .str o.ID), ("type", .str o.Type_)]

def encodeIncidentResponders (o : IncidentResponders) : Json :=
  .obj [("state", .str o.State), ("user", encodeAPIObject o.User),
    ("incident", encodeAPIObject o.Incident), ("updated_at", .str o.UpdatedAt),
    ("message", .str o.Message), ("requester", encodeAPIObject o.Requester),
    ("requested_at", .str o.RequestedAt)]

def encodeResponderRequestTarget (o : ResponderRequestTarget) : Json :=
  .obj (apiObjectEntries o.apiObject ++
    [("incident_responders", encodeIncidentResponders o.Responders)])

/-- Marshal of `ResponderRequestOptions`: the From field carries the json tag
"-" and is skipped; the remaining fields are emitted flat (there is no
envelope around this payload). -/
def encodeResponderRequestOptions (o : ResponderRequestOptions) : Json :=
  .obj [("message", .str o.Message), ("requester_id", .str o.RequesterID),
    ("responder_request_targets", .arr (o.Targets.map encodeResponderRequestTarget))]

/-- Character-wise string comparison for Go's sorted map-key marshalling. -/
def charsLe : List Char → List Char → Bool
  | x :: xs, y :: ys => decide (x.toNat < y.toNat) || (x == y && charsLe xs ys)
  | [], _ => true
  | _, _ => false

/-- Order on marshalled map entries by key. -/
def objEntryLe (x y : String × Json) : Prop := charsLe x.1.data y.1.data = true

instance : DecidableRel objEntryLe := fun x y =>
  inferInstanceAs (Decidable (charsLe x.1.data y.1.data = true))

/-- Go marshals a map with its keys sorted. -/
def sortObjEntries (kvs : List (String × Json)) : List (String × Json) :=
  List.insertionSort objEntryLe kvs

def encodeIncidentAlert (o : IncidentAlert) : Json :=
  .obj (apiObjectEntries o.apiObject ++ strOpt "created_at" o.CreatedAt ++
    strOpt "status" o.Status ++ strOpt "alert_key" o.AlertKey ++
    [("service", encodeAPIObject o.Service)] ++
    (if o.Body.isEmpty then [] else [("body", .obj (sortObjEntries o.Body))]) ++
    [("incident", encodeAPIReference o.Incident)] ++
    (if o.Suppressed then [("suppressed", .bool true)] else []) ++
    strOpt "severity" o.Severity ++
    [("integration", encodeAPIObject o.Integration)])

def encodeIncidentAlertList (o : IncidentAlertList) : Json :=
  .obj (if o.Alerts.isEmpty then []
        else [("alerts", .arr (o.Alerts.map encodeIncidentAlert))])

/-- A cancellation/deadline context handed to an operation; the background
context is the never-cancelled default the deprecated wrappers use. -/
inductive Ctx where
  | background
  | custom (n : Nat)
deriving DecidableEq

/-- Errors the HTTP gateway reports (spec section 7): transport failures,
4xx/5xx statuses, and context cancellation/deadline. -/
inductive GatewayErr where
  | cancelled
  | deadlineExceeded
  | transport (msg : String)
  | httpStatus (code : Nat) (body : String)
deriving DecidableEq

/-- Errors an operation returns: a gateway error passed through unchanged, a
JSON decode failure, or the missing-envelope-key error the source produces
with fmt.Errorf("JSON response does not have ... field"). -/
inductive ClientErr where
  | gateway (e : GatewayErr)
  | decode (msg : String)
  | missingEnvelopeKey (key : String)
deriving DecidableEq

inductive Method where
  | get
  | post
  | put
deriving DecidableEq

/-- One request handed to the HTTP gateway: the context it should run under,
the verb, the path (with query string), an optional JSON body and optional
headers (none models a nil header map). -/
structure GatewayCall where
  ctx : Ctx
  method : Method
  path : String
  body : Option Json := none
  headers : Option (List (String × String)) := none

/-- Modelled from the spec: the HTTP gateway collaborator (`Client.get`,
`Client.post`, `Client.put` of `client.go`, outside the embedded file). It
owns transport concerns and returns either a gateway error or the parsed
response body. -/
def Gateway : Type := GatewayCall → Except GatewayErr Json

/-- Latin-1 view of an encoded query byte string for splicing into a path. -/
def byteStrToString (s : ByteStr) : String :=
  String.mk (s.map (fun b => Char.ofNat b.val))

/-- Issue a call and decode its successful response, wrapping errors as the
operations do (gateway errors pass through, decode errors are returned
immediately). -/
def runDecode {α : Type} (dec : Json → Except String α)
    (r : Except GatewayErr Json) : Except ClientErr α :=
  match r with
  | .error e => .error (.gateway e)
  | .ok j =>
    match dec j with
    | .error m => .error (.decode m)
    | .ok v => .ok v

namespace Client

def listIncidentsCall (ctx : Ctx) (o : ListIncidentsOptions) : GatewayCall :=
  { ctx := ctx, method := .get,
    path := "/incidents?" ++ byteStrToString (encodeListIncidentsOptions o) }

/-- ListIncidentsWithContext lists existing incidents. -/
def ListIncidentsWithContext (gw : Gateway) (ctx : Ctx) (o : ListIncidentsOptions) :
    Except ClientErr ListIncidentsResponse :=
  runDecode decodeListIncidentsResponse (gw (listIncidentsCall ctx o))

/-- ListIncidents delegates to ListIncidentsWithContext under the background
context. -/
def ListIncidents (gw : Gateway) (o : ListIncidentsOptions) :
    Except ClientErr ListIncidentsResponse :=
  ListIncidentsWithContext gw Ctx.background o

def createIncidentCall (ctx : Ctx) (from_ : String) (o : CreateIncidentOptions) :
    GatewayCall :=
  { ctx := ctx, method := .post, path := "/incidents",
    body := some (.obj [("incident", encodeCreateIncidentOptions o)]),
    headers := some [("From", from_)] }

/-- CreateIncidentWithContext creates an incident. -/
def CreateIncidentWithContext (gw : Gateway) (ctx : Ctx) (from_ : String)
    (o : CreateIncidentOptions) : Except ClientErr Incident :=
  match runDecode decodeCreateIncidentResponse (gw (createIncidentCall ctx from_ o)) with
  | .error e => .error e
  | .ok r => .ok r.Incident

def CreateIncident (gw : Gateway) (from_ : String) (o : CreateIncidentOptions) :
    Except ClientErr Incident :=
  CreateIncidentWithContext gw Ctx.background from_ o

def manageIncidentsCall (ctx : Ctx) (from_ : String)
    (incidents : List ManageIncidentsOptions) : GatewayCall :=
  { ctx := ctx, method := .put, path := "/incidents",
    body := some (.obj [("incidents", .arr (incidents.map encodeManageIncidentsOptions))]),
    headers := some [("From", from_)] }

/-- ManageIncidentsWithContext updates one or more incidents in bulk. -/
def ManageIncidentsWithContext (gw : Gateway) (ctx : Ctx) (from_ : String)
    (incidents : List ManageIncidentsOptions) : Except ClientErr ListIncidentsResponse :=
  runDecode decodeListIncidentsResponse (gw (manageIncidentsCall ctx from_ incidents))

def ManageIncidents (gw : Gateway) (from_ : String)
    (incidents : List ManageIncidentsOptions) : Except ClientErr ListIncidentsResponse :=
  ManageIncidentsWithContext gw Ctx.background from_ incidents

def mergeIncidentsCall (ctx : Ctx) (from_ : String) (id : String)
    (sourceIncidents : List MergeIncidentsOptions) : GatewayCall :=
  { ctx := ctx, method := .put, path := "/incidents/" ++ id ++ "/merge",
    body := some (.obj [("source_incidents",
      .arr (sourceIncidents.map encodeMergeIncidentsOptions))]),
    headers := some [("From", from_)] }

/-- MergeIncidentsWithContext merges source incidents into a target. -/
def MergeIncidentsWithContext (gw : Gateway) (ctx : Ctx) (from_ : String) (id : String)
    (sourceIncidents : List MergeIncidentsOptions) : Except ClientErr Incident :=
  match runDecode decodeCreateIncidentResponse
      (gw (mergeIncidentsCall ctx from_ id sourceIncidents)) with
  | .error e => .error e
  | .ok r => .ok r.Incident

def MergeIncidents (gw : Gateway) (from_ : String) (id : String)
    (sourceIncidents : List MergeIncidentsOptions) : Except ClientErr Incident :=
  MergeIncidentsWithContext gw Ctx.background from_ id sourceIncidents

def getIncidentCall (ctx : Ctx) (id : String) : GatewayCall :=
  { ctx := ctx, method := .get, path := "/incidents/" ++ id }

/-- GetIncidentWithContext decodes into a map of incidents and fails with the
missing-envelope-key error when the incident key is absent. -/
def GetIncidentWithContext (gw : Gateway) (ctx : Ctx) (id : String) :
    Except ClientErr Incident :=
  match gw (getIncidentCall ctx id) with
  | .error e => .error (.gateway e)
  | .ok resp =>
    match unmarshalStringMap unmarshalIncident resp with
    | .error m => .error (.decode m)
    | .ok result =>
      match mapLookup "incident" result with
      | none => .error (.missingEnvelopeKey "incident")
      | some i => .ok i

def GetIncident (gw : Gateway) (id : String) : Except ClientErr Incident :=
  GetIncidentWithContext gw Ctx.background id

def listIncidentNotesCall (ctx : Ctx) (id : String) : GatewayCall :=
  { ctx := ctx, method := .get, path := "/incidents/" ++ id ++ "/notes" }

/-- Unmarshal of a `[]IncidentNote` map value (null is the nil slice). -/
def asNoteSlice : Json → Except String (List IncidentNote)
  | .null => .ok []
  | .arr xs => xs.mapM unmarshalIncidentNote
  | _ => .error "json: cannot unmarshal value into Go slice field"

/-- ListIncidentNotesWithContext decodes into a map of note slices and fails
with the missing-envelope-key error when the notes key is absent. -/
def ListIncidentNotesWithContext (gw : Gateway) (ctx : Ctx) (id : String) :
    Except ClientErr (List IncidentNote) :=
  match gw (listIncidentNotesCall ctx id) with
  | .error e => .error (.gateway e)
  | .ok resp =>
    match unmarshalStringMap asNoteSlice resp with
    | .error m => .error (.decode m)
    | .ok result =>
      match mapLookup "notes" result with
      | none => .error (.missingEnvelopeKey "notes")
      | some notes => .ok notes

def ListIncidentNotes (gw : Gateway) (id : String) : Except ClientErr (List IncidentNote) :=
  ListIncidentNotesWithContext gw Ctx.background id

def listIncidentAlertsCall (ctx : Ctx) (id : String) (o : ListIncidentAlertsOptions) :
    GatewayCall :=
  { ctx := ctx, method := .get,
    path := "/incidents/" ++ id ++ "/alerts?" ++
      byteStrToString (encodeListIncidentAlertsOptions o) }

/-- ListIncidentAlertsWithContext lists the alerts of an incident. -/
def ListIncidentAlertsWithContext (gw : Gateway) (ctx : Ctx) (id : String)
    (o : ListIncidentAlertsOptions) : Except ClientErr ListAlertsResponse :=
  runDecode decodeListAlertsResponse (gw (listIncidentAlertsCall ctx id o))

def ListIncidentAlerts (gw : Gateway) (id : String) : Except ClientErr ListAlertsResponse :=
  ListIncidentAlertsWithContext gw Ctx.background id {}

def ListIncidentAlertsWithOpts (gw : Gateway) (id : String)
    (o : ListIncidentAlertsOptions) : Except ClientErr ListAlertsResponse :=
  ListIncidentAlertsWithContext gw Ctx.background id o

def createIncidentNoteCall (ctx : Ctx) (id : String) (note : IncidentNote) : GatewayCall :=
  { ctx := ctx, method := .post, path := "/incidents/" ++ id ++ "/notes",
    body := some (.obj [("note", encodeIncidentNote note)]),
    headers := some [("From", note.User.Summary)] }

/-- CreateIncidentNoteWithContext creates a note; the attribution header is
the summary of the note's own user reference. -/
def CreateIncidentNoteWithContext (gw : Gateway) (ctx : Ctx) (id : String)
    (note : IncidentNote) : Except ClientErr IncidentNote :=
  match runDecode decodeCreateIncidentNoteResponse (gw (createIncidentNoteCall ctx id note)) with
  | .error e => .error e
  | .ok r => .ok r.IncidentNote

def CreateIncidentNoteWithResponse (gw : Gateway) (id : String) (note : IncidentNote) :
    Except ClientErr IncidentNote :=
  CreateIncidentNoteWithContext gw Ctx.background id note

/-- Deprecated variant: posts the note and discards the response body. -/
def CreateIncidentNote (gw : Gateway) (id : String) (note : IncidentNote) :
    Except ClientErr Unit :=
  match gw (createIncidentNoteCall Ctx.background id note) with
  | .error e => .error (.gateway e)
  | .ok _ => .ok ()

def snoozeIncidentCall (ctx : Ctx) (id : String) (duration : Nat) : GatewayCall :=
  { ctx := ctx, method := .post, path := "/incidents/" ++ id ++ "/snooze",
    body := some (.obj [("duration", .num duration)]),
    headers := none }

/-- SnoozeIncidentWithContext snoozes an incident; the source passes nil
headers to the gateway. -/
def SnoozeIncidentWithContext (gw : Gateway) (ctx : Ctx) (id : String) (duration : Nat) :
    Except ClientErr Incident :=
  match runDecode decodeCreateIncidentResponse (gw (snoozeIncidentCall ctx id duration)) with
  | .error e => .error e
  | .ok r => .ok r.Incident

def SnoozeIncidentWithResponse (gw : Gateway) (id : String) (duration : Nat) :
    Except ClientErr Incident :=
  SnoozeIncidentWithContext gw Ctx.background id duration

/-- Deprecated variant: posts the snooze and discards the response body. -/
def SnoozeIncident (gw : Gateway) (id : String) (duration : Nat) : Except ClientErr Unit :=
  match gw (snoozeIncidentCall Ctx.background id duration) with
  | .error e => .error (.gateway e)
  | .ok _ => .ok ()

def listIncidentLogEntriesCall (ctx : Ctx) (id : String)
    (o : ListIncidentLogEntriesOptions) : GatewayCall :=
  { ctx := ctx, method := .get,
    path := "/incidents/" ++ id ++ "/log_entries?" ++
      byteStrToString (encodeListIncidentLogEntriesOptions o) }

/-- ListIncidentLogEntriesWithContext lists the log entries of an incident. -/
def ListIncidentLogEntriesWithContext (gw : Gateway) (ctx : Ctx) (id : String)
    (o : ListIncidentLogEntriesOptions) : Except ClientErr ListIncidentLogEntriesResponse :=
  runDecode decodeListIncidentLogEntriesResponse (gw (listIncidentLogEntriesCall ctx id o))

def ListIncidentLogEntries (gw : Gateway) (id : String)
    (o : ListIncidentLogEntriesOptions) : Except ClientErr ListIncidentLogEntriesResponse :=
  ListIncidentLogEntriesWithContext gw Ctx.background id o

def responderRequestCall (ctx : Ctx) (id : String) (o : ResponderRequestOptions) :
    GatewayCall :=
  { ctx := ctx, method := .post, path := "/incidents/" ++ id ++ "/responder_requests",
    body := some (encodeResponderRequestOptions o),
    headers := some [("From", o.From)] }

/-- ResponderRequestWithContext submits a responder request; the payload is
posted flat (not wrapped in an envelope). -/
def ResponderRequestWithContext (gw : Gateway) (ctx : Ctx) (id : String)
    (o : ResponderRequestOptions) : Except ClientErr ResponderRequestResponse :=
  runDecode decodeResponderRequestResponse (gw (responderRequestCall ctx id o))

def ResponderRequest (gw : Gateway) (id : String) (o : ResponderRequestOptions) :
    Except ClientErr ResponderRequestResponse :=
  ResponderRequestWithContext gw Ctx.background id o

def getIncidentAlertCall (ctx : Ctx) (incidentID alertID : String) : GatewayCall :=
  { ctx := ctx, method := .get,
    path := "/incidents/" ++ incidentID ++ "/alerts/" ++ alertID }

/-- The private helper behind GetIncidentAlert; also yields the raw response
(the Go version returns the *http.Response). -/
def getIncidentAlertWithContext (gw : Gateway) (ctx : Ctx) (incidentID alertID : String) :
    Except ClientErr (IncidentAlertResponse × Json) :=
  match gw (getIncidentAlertCall ctx incidentID alertID) with
  | .error e => .error (.gateway e)
  | .ok resp =>
    match decodeIncidentAlertResponse resp with
    | .error m => .error (.decode m)
    | .ok r => .ok (r, resp)

/-- GetIncidentAlertWithContext: the source invokes the private helper with
context.Background() instead of the caller's ctx. -/
def GetIncidentAlertWithContext (gw : Gateway) (ctx : Ctx) (incidentID alertID : String) :
    Except ClientErr IncidentAlertResponse :=
  (getIncidentAlertWithContext gw Ctx.background incidentID alertID).map Prod.fst

def GetIncidentAlert (gw : Gateway) (incidentID alertID : String) :
    Except ClientErr (IncidentAlertResponse × Json) :=
  getIncidentAlertWithContext gw Ctx.background incidentID alertID

def manageIncidentAlertsCall (ctx : Ctx) (incidentID : String) (alerts : IncidentAlertList) :
    GatewayCall :=
  { ctx := ctx, method := .put,
    path := "/incidents/" ++ incidentID ++ "/alerts/",
    body := some (encodeIncidentAlertList alerts),
    headers := none }

/-- The private helper behind ManageIncidentAlerts; nil headers, trailing
slash on the path, as in the source. -/
def manageIncidentAlertsWithContext (gw : Gateway) (ctx : Ctx) (incidentID : String)
    (alerts : IncidentAlertList) : Except ClientErr (ListAlertsResponse × Json) :=
  match gw (manageIncidentAlertsCall ctx incidentID alerts) with
  | .error e => .error (.gateway e)
  | .ok resp =>
    match decodeListAlertsResponse resp with
    | .error m => .error (.decode m)
    | .ok r => .ok (r, resp)

/-- ManageIncidentAlertsWithContext: the source invokes the private helper
with context.Background() instead of the caller's ctx. -/
def ManageIncidentAlertsWithContext (gw : Gateway) (ctx : Ctx) (incidentID : String)
    (alerts : IncidentAlertList) : Except ClientErr ListAlertsResponse :=
  (manageIncidentAlertsWithContext gw Ctx.background incidentID alerts).map Prod.fst

def ManageIncidentAlerts (gw : Gateway) (incidentID : String) (alerts : IncidentAlertList) :
    Except ClientErr (ListAlertsResponse × Json) :=
  manageIncidentAlertsWithContext gw Ctx.background incidentID alerts

end Client

/-- Claim C2 (corrected): snooze posts with nil headers, so no From header is
sent for it, and alert management likewise; the claim that EVERY
state-changing operation sends a From header is false at these inputs. -/
theorem claim_C2_counterexample :
    (Client.snoozeIncidentCall Ctx.background "PX" 60).headers = none ∧
    (Client.manageIncidentAlertsCall Ctx.background "PX" {}).headers = none :=
  ⟨rfl, rfl⟩

/-- Claim C2 as amended: incident creation, bulk manage, merge, note creation
and responder requests each send a From header naming the acting user
(for note creation, the note's user summary); snooze and alert management
send no headers at all (nil header map). -/
theorem claim_C2_amended (ctx : Ctx) (from_ id : String) (o : CreateIncidentOptions)
    (ms : List ManageIncidentsOptions) (srcs : List MergeIncidentsOptions)
    (note : IncidentNote) (ro : ResponderRequestOptions) (d : Nat)
    (alerts : IncidentAlertList) :
    (Client.createIncidentCall ctx from_ o).headers = some [("From", from_)] ∧
    (Client.manageIncidentsCall ctx from_ ms).headers = some [("From", from_)] ∧
    (Client.mergeIncidentsCall ctx from_ id srcs).headers = some [("From", from_)] ∧
    (Client.createIncidentNoteCall ctx id note).headers =
      some [("From", note.User.Summary)] ∧
    (Client.responderRequestCall ctx id ro).headers = some [("From", ro.From)] ∧
    (Client.snoozeIncidentCall ctx id d).headers = none ∧
    (Client.manageIncidentAlertsCall ctx id alerts).headers = none :=
  ⟨rfl, rfl, rfl, rfl, rfl, rfl, rfl⟩

/-- Claim C3 (code bug): every request-builder records the caller's context,
and every operation hands its context to the gateway — except
GetIncidentAlertWithContext and ManageIncidentAlertsWithContext, which invoke
the private helper with the background context, discarding the caller's ctx;
with a gateway that cancels every call made under a non-background context,
those two operations still succeed while a well-behaved operation reports the
cancellation. -/
theorem claim_C3_ctx_dropped :
    (∀ ctx o, (Client.listIncidentsCall ctx o).ctx = ctx) ∧
    (∀ ctx from_ o, (Client.createIncidentCall ctx from_ o).ctx = ctx) ∧
    (∀ ctx from_ ms, (Client.manageIncidentsCall ctx from_ ms).ctx = ctx) ∧
    (∀ ctx from_ id srcs, (Client.mergeIncidentsCall ctx from_ id srcs).ctx = ctx) ∧
    (∀ ctx id, (Client.getIncidentCall ctx id).ctx = ctx) ∧
    (∀ ctx id, (Client.listIncidentNotesCall ctx id).ctx = ctx) ∧
    (∀ ctx id ao, (Client.listIncidentAlertsCall ctx id ao).ctx = ctx) ∧
    (∀ ctx id note, (Client.createIncidentNoteCall ctx id note).ctx = ctx) ∧
    (∀ ctx id d, (Client.snoozeIncidentCall ctx id d).ctx = ctx) ∧
    (∀ ctx id lo, (Client.listIncidentLogEntriesCall ctx id lo).ctx = ctx) ∧
    (∀ ctx id ro, (Client.responderRequestCall ctx id ro).ctx = ctx) ∧
    (∀ ctx iid aid, (Client.getIncidentAlertCall ctx iid aid).ctx = ctx) ∧
    (∀ ctx iid al, (Client.manageIncidentAlertsCall ctx iid al).ctx = ctx) ∧
    (∀ gw ctx iid aid, Client.GetIncidentAlertWithContext gw ctx iid aid =
      (Client.getIncidentAlertWithContext gw Ctx.background iid aid).map Prod.fst) ∧
    (∀ gw ctx iid al, Client.ManageIncidentAlertsWithContext gw ctx iid al =
      (Client.manageIncidentAlertsWithContext gw Ctx.background iid al).map Prod.fst) ∧
    Client.GetIncidentAlertWithContext
      (fun c => if c.ctx = Ctx.background then .ok (Json.obj []) else .error .cancelled)
      (Ctx.custom 1) "I1" "A1" = .ok { IncidentAlert := none } ∧
    Client.ManageIncidentAlertsWithContext
      (fun c => if c.ctx = Ctx.background then .ok (Json.obj []) else .error .cancelled)
      (Ctx.custom 1) "I1" {} = .ok {} ∧
    Client.GetIncidentWithContext
      (fun c => if c.ctx = Ctx.background then .ok (Json.obj []) else .error .cancelled)
      (Ctx.custom 1) "I1" = .error (.gateway .cancelled) := by
  refine ⟨?_, ?_, ?_, ?_, ?_, ?_, ?_, ?_, ?_, ?_, ?_, ?_, ?_, ?_, ?_, ?_, ?_, ?_⟩ <;>
    intros <;> rfl

/-- Claim C7 (corrected): the responder request payload is not wrapped in a
single-key envelope; its top-level keys are the flat option fields. -/
theorem claim_C7_counterexample :
    (match (Client.responderRequestCall Ctx.background "PX"
        { From := "ops@example.com", Message := "m", RequesterID := "R1" }).body with
     | some (Json.obj kvs) => kvs.map Prod.fst
     | _ => []) = ["message", "requester_id", "responder_request_targets"] ∧
    ["message", "requester_id", "responder_request_targets"] ≠ ["responder_request"] :=
  ⟨rfl, by decide⟩

/-- Claim C7 as amended: incident creation and note creation wrap their
payloads in a single-key object named after the resource in singular form
("incident", "note"); the responder request payload is sent flat — the
marshalled options object itself, whose keys are message, requester_id and
responder_request_targets (the From field is excluded by its json "-" tag). -/
theorem claim_C7_amended (ctx : Ctx) (from_ id : String) (o : CreateIncidentOptions)
    (note : IncidentNote) (ro : ResponderRequestOptions) :
    (Client.createIncidentCall ctx from_ o).body =
      some (.obj [("incident", encodeCreateIncidentOptions o)]) ∧
    (Client.createIncidentNoteCall ctx id note).body =
      some (.obj [("note", encodeIncidentNote note)]) ∧
    (Client.responderRequestCall ctx id ro).body =
      some (encodeResponderRequestOptions ro) ∧
    (match encodeResponderRequestOptions ro with
     | Json.obj kvs => kvs.map Prod.fst
     | _ => []) = ["message", "requester_id", "responder_request_targets"] :=
  ⟨rfl, rfl, rfl, rfl⟩

/-- Claim C8: the bulk update operation issues a PUT to the collection path
"/incidents", wraps the mutation descriptors under the pluralized key
"incidents", and decodes its response through the plural-keyed list envelope
decoder. -/
theorem claim_C8_bulk_manage (ctx : Ctx) (from_ : String)
    (incidents : List ManageIncidentsOptions) :
    (Client.manageIncidentsCall ctx from_ incidents).method = Method.put ∧
    (Client.manageIncidentsCall ctx from_ incidents).path = "/incidents" ∧
    (Client.manageIncidentsCall ctx from_ incidents).body =
      some (.obj [("incidents", .arr (incidents.map encodeManageIncidentsOptions))]) ∧
    decodeListIncidentsResponse (Json.obj [("incidents", Json.arr [])]) =
      .ok ({} : ListIncidentsResponse) ∧
    (∀ gw : Gateway, ∀ j, gw (Client.manageIncidentsCall ctx from_ incidents) = .ok j →
      Client.ManageIncidentsWithContext gw ctx from_ incidents =
        runDecode decodeListIncidentsResponse (.ok j)) := by
  refine ⟨rfl, rfl, rfl, rfl, ?_⟩
  intro gw j h
  unfold Client.ManageIncidentsWithContext
  rw [h]

/-- Witness for C8 at a concrete bulk update against a service answering with
an empty plural envelope. -/
theorem claim_C8_bulk_manage_witness :
    Client.ManageIncidentsWithContext
      (fun _ => .ok (Json.obj [("incidents", Json.arr [])]))
      Ctx.background "ops@example.com" [{ ID := "Q1", Type_ := "incident_reference" }] =
      runDecode decodeListIncidentsResponse (.ok (Json.obj [("incidents", Json.arr [])])) :=
  (claim_C8_bulk_manage Ctx.background "ops@example.com"
    [{ ID := "Q1", Type_ := "incident_reference" }]).2.2.2.2
    (fun _ => .ok (Json.obj [("incidents", Json.arr [])])) _ rfl

/-- Claim C10: when creating an incident note (both the WithContext and the
deprecated variant share the same request builder), the From attribution
header is the note's own user summary, not a separate actor parameter; a note
with an empty user summary is sent with an empty From header and the client
raises no error of its own. -/
theorem claim_C10_note_from_user_summary (ctx : Ctx) (id : String) (note : IncidentNote) :
    (Client.createIncidentNoteCall ctx id note).headers =
      some [("From", note.User.Summary)] ∧
    (Client.createIncidentNoteCall ctx id { Content := "c" }).headers =
      some [("From", "")] ∧
    Client.CreateIncidentNoteWithContext
      (fun _ => .ok (Json.obj [("note", Json.obj [])])) ctx id { Content := "c" } =
      .ok ({} : IncidentNote) ∧
    Client.CreateIncidentNote (fun _ => .ok (Json.obj [])) id { Content := "c" } =
      .ok () :=
  ⟨rfl, rfl, rfl, rfl⟩

theorem decodeCreateIncidentResponse_missing (kvs : List (String × Json))
    (h : lookupField "incident" kvs = none) :
    decodeCreateIncidentResponse (Json.obj kvs) = .ok ({} : createIncidentResponse) := by
  simp only [decodeCreateIncidentResponse, asObjKvs, fieldOr, h, bind, Except.bind, pure,
    Except.pure]

theorem decodeCreateIncidentNoteResponse_missing (kvs : List (String × Json))
    (h : lookupField "note" kvs = none) :
    decodeCreateIncidentNoteResponse (Json.obj kvs) = .ok ({} : CreateIncidentNoteResponse) := by
  simp only [decodeCreateIncidentNoteResponse, asObjKvs, fieldOr, h, bind, Except.bind, pure,
    Except.pure]

/-- Claim C1 (corrected): incident creation against a well-formed JSON object
with no incident envelope key silently returns the zero-valued incident with
no error — the claimed MissingEnvelopeKey error is not produced. -/
theorem claim_C1_counterexample :
    Client.CreateIncidentWithContext (fun _ => .ok (Json.obj [])) Ctx.background
      "ops@example.com" {} = .ok ({} : Incident) := rfl

/-- Claim C1 as amended: only the two operations that decode through a Go map
and check the key — GetIncident (key incident) and ListIncidentNotes (key
notes) — fail with the missing-envelope-key error on an enveloped-less
well-formed object; the operations that decode into struct envelopes
(create, bulk manage, merge, snooze, note creation, responder request, the
single-alert get and the three list endpoints) silently return zero-valued
results with no error. -/
theorem claim_C1_amended :
    (∀ (gw : Gateway) (ctx : Ctx) (id : String) (kvs : List (String × Json))
        (result : List (String × Incident)),
      gw (Client.getIncidentCall ctx id) = .ok (.obj kvs) →
      unmarshalStringMap unmarshalIncident (.obj kvs) = .ok result →
      mapLookup "incident" result = none →
      Client.GetIncidentWithContext gw ctx id = .error (.missingEnvelopeKey "incident")) ∧
    (∀ (gw : Gateway) (ctx : Ctx) (id : String) (kvs : List (String × Json))
        (result : List (String × List IncidentNote)),
      gw (Client.listIncidentNotesCall ctx id) = .ok (.obj kvs) →
      unmarshalStringMap Client.asNoteSlice (.obj kvs) = .ok result →
      mapLookup "notes" result = none →
      Client.ListIncidentNotesWithContext gw ctx id =
        .error (.missingEnvelopeKey "notes")) ∧
    (∀ (gw : Gateway) (ctx : Ctx) (from_ : String) (o : CreateIncidentOptions)
        (kvs : List (String × Json)),
      gw (Client.createIncidentCall ctx from_ o) = .ok (.obj kvs) →
      lookupField "incident" kvs = none →
      Client.CreateIncidentWithContext gw ctx from_ o = .ok ({} : Incident)) ∧
    (∀ (gw : Gateway) (ctx : Ctx) (id : String) (note : IncidentNote)
        (kvs : List (String × Json)),
      gw (Client.createIncidentNoteCall ctx id note) = .ok (.obj kvs) →
      lookupField "note" kvs = none →
      Client.CreateIncidentNoteWithContext gw ctx id note = .ok ({} : IncidentNote)) ∧
    (∀ ctx from_ ms, Client.ManageIncidentsWithContext (fun _ => .ok (Json.obj []))
      ctx from_ ms = .ok ({} : ListIncidentsResponse)) ∧
    (∀ ctx from_ id srcs, Client.MergeIncidentsWithContext (fun _ => .ok (Json.obj []))
      ctx from_ id srcs = .ok ({} : Incident)) ∧
    (∀ ctx id d, Client.SnoozeIncidentWithContext (fun _ => .ok (Json.obj []))
      ctx id d = .ok ({} : Incident)) ∧
    (∀ ctx id ro, Client.ResponderRequestWithContext (fun _ => .ok (Json.obj []))
      ctx id ro = .ok ({} : ResponderRequestResponse)) ∧
    (∀ ctx iid aid, Client.GetIncidentAlertWithContext (fun _ => .ok (Json.obj []))
      ctx iid aid = .ok ({ IncidentAlert := none } : IncidentAlertResponse)) ∧
    (∀ ctx o, Client.ListIncidentsWithContext (fun _ => .ok (Json.obj []))
      ctx o = .ok ({} : ListIncidentsResponse)) ∧
    (∀ ctx id ao, Client.ListIncidentAlertsWithContext (fun _ => .ok (Json.obj []))
      ctx id ao = .ok ({} : ListAlertsResponse)) ∧
    (∀ ctx id lo, Client.ListIncidentLogEntriesWithContext (fun _ => .ok (Json.obj []))
      ctx id lo = .ok ({} : ListIncidentLogEntriesResponse)) := by
  refine ⟨?_, ?_, ?_, ?_, ?_, ?_, ?_, ?_, ?_, ?_, ?_, ?_⟩ <;> try (intros; rfl)
  · intro gw ctx id kvs result hgw hdec hlook
    simp only [Client.GetIncidentWithContext, hgw, hdec, hlook]
  · intro gw ctx id kvs result hgw hdec hlook
    simp only [Client.ListIncidentNotesWithContext, hgw, hdec, hlook]
  · intro gw ctx from_ o kvs hgw hlook
    simp only [Client.CreateIncidentWithContext, runDecode, hgw,
      decodeCreateIncidentResponse_missing kvs hlook]
  · intro gw ctx id note kvs hgw hlook
    simp only [Client.CreateIncidentNoteWithContext, runDecode, hgw,
      decodeCreateIncidentNoteResponse_missing kvs hlook]

/-- Witness for C1 as amended, at concrete envelope-less responses. -/
theorem claim_C1_amended_witness :
    Client.GetIncidentWithContext (fun _ => .ok (Json.obj [])) Ctx.background "Q2" =
      .error (.missingEnvelopeKey "incident") ∧
    Client.ListIncidentNotesWithContext (fun _ => .ok (Json.obj [])) Ctx.background "Q2" =
      .error (.missingEnvelopeKey "notes") ∧
    Client.CreateIncidentWithContext (fun _ => .ok (Json.obj [("status", Json.str "ok")]))
      Ctx.background "ops@example.com" {} = .ok ({} : Incident) ∧
    Client.CreateIncidentNoteWithContext (fun _ => .ok (Json.obj [("ok", Json.bool true)]))
      Ctx.background "Q2" {} = .ok ({} : IncidentNote) :=
  ⟨claim_C1_amended.1 _ _ _ [] [] rfl rfl rfl,
   claim_C1_amended.2.1 _ _ _ [] [] rfl rfl rfl,
   claim_C1_amended.2.2.1 _ _ _ {} [("status", Json.str "ok")] rfl rfl,
   claim_C1_amended.2.2.2.1 _ _ _ {} [("ok", Json.bool true)] rfl rfl⟩

/-- Modelled from the spec: the path-builder scheme of section 4.1: a bare
resource listing is /resource, a single resource /resource/id, a sub-resource
collection /resource/id/sub, a single sub-resource item
/resource/id/sub/subId. This is the spec-side definition the request paths
are compared against. -/
def buildPath (resource id sub subId : String) : String :=
  "/" ++ resource ++
    (if id = "" then "" else "/" ++ id ++
      (if sub = "" then "" else "/" ++ sub ++
        (if subId = "" then "" else "/" ++ subId)))

/-- Claim C9 (corrected): the alert-management request path carries a
trailing slash, which the path-builder scheme never produces. -/
theorem claim_C9_counterexample :
    (Client.manageIncidentAlertsCall Ctx.background "I1" {}).path =
      "/incidents/I1/alerts/" ∧
    buildPath "incidents" "I1" "alerts" "" = "/incidents/I1/alerts" ∧
    ("/incidents/I1/alerts/" : String) ≠ "/incidents/I1/alerts" :=
  ⟨rfl, by decide, by decide⟩

/-- Claim C9 as amended: every request path follows the path-builder scheme,
except that the three list endpoints always append a question mark plus the
encoded query string to their collection path, and alert management appends a
trailing slash to its sub-resource collection path. -/
theorem claim_C9_amended (ctx : Ctx) (from_ id subId : String)
    (hid : id ≠ "") (hsub : subId ≠ "")
    (o : ListIncidentsOptions) (ao : ListIncidentAlertsOptions)
    (lo : ListIncidentLogEntriesOptions) (co : CreateIncidentOptions)
    (ms : List ManageIncidentsOptions) (srcs : List MergeIncidentsOptions)
    (note : IncidentNote) (ro : ResponderRequestOptions) (d : Nat)
    (alerts : IncidentAlertList) :
    (Client.createIncidentCall ctx from_ co).path = buildPath "incidents" "" "" "" ∧
    (Client.manageIncidentsCall ctx from_ ms).path = buildPath "incidents" "" "" "" ∧
    (Client.getIncidentCall ctx id).path = buildPath "incidents" id "" "" ∧
    (Client.mergeIncidentsCall ctx from_ id srcs).path =
      buildPath "incidents" id "merge" "" ∧
    (Client.listIncidentNotesCall ctx id).path = buildPath "incidents" id "notes" "" ∧
    (Client.createIncidentNoteCall ctx id note).path =
      buildPath "incidents" id "notes" "" ∧
    (Client.snoozeIncidentCall ctx id d).path = buildPath "incidents" id "snooze" "" ∧
    (Client.responderRequestCall ctx id ro).path =
      buildPath "incidents" id "responder_requests" "" ∧
    (Client.getIncidentAlertCall ctx id subId).path =
      buildPath "incidents" id "alerts" subId ∧
    (Client.listIncidentsCall ctx o).path =
      buildPath "incidents" "" "" "" ++ "?" ++
        byteStrToString (encodeListIncidentsOptions o) ∧
    (Client.listIncidentAlertsCall ctx id ao).path =
      buildPath "incidents" id "alerts" "" ++ "?" ++
        byteStrToString (encodeListIncidentAlertsOptions ao) ∧
    (Client.listIncidentLogEntriesCall ctx id lo).path =
      buildPath "incidents" id "log_entries" "" ++ "?" ++
        byteStrToString (encodeListIncidentLogEntriesOptions lo) ∧
    (Client.manageIncidentAlertsCall ctx id alerts).path =
      buildPath "incidents" id "alerts" "" ++ "/" := by
  refine ⟨rfl, rfl, ?_, ?_, ?_, ?_, ?_, ?_, ?_, ?_, ?_, ?_, ?_⟩
  · show "/incidents/" ++ id = buildPath "incidents" id "" ""
    unfold buildPath
    rw [if_neg hid, if_pos rfl, String.append_empty]
    apply String.ext
    simp only [String.data_append, List.append_assoc]
    rfl
  · show "/incidents/" ++ id ++ "/merge" = buildPath "incidents" id "merge" ""
    unfold buildPath
    rw [if_neg hid, if_neg (by decide : ¬("merge" : String) = ""), if_pos rfl,
      String.append_empty]
    apply String.ext
    simp only [String.data_append, List.append_assoc]
    rfl
  · show "/incidents/" ++ id ++ "/notes" = buildPath "incidents" id "notes" ""
    unfold buildPath
    rw [if_neg hid, if_neg (by decide : ¬("notes" : String) = ""), if_pos rfl,
      String.append_empty]
    apply String.ext
    simp only [String.data_append, List.append_assoc]
    rfl
  · show "/incidents/" ++ id ++ "/notes" = buildPath "incidents" id "notes" ""
    unfold buildPath
    rw [if_neg hid, if_neg (by decide : ¬("notes" : String) = ""), if_pos rfl,
      String.append_empty]
    apply String.ext
    simp only [String.data_append, List.append_assoc]
    rfl
  · show "/incidents/" ++ id ++ "/snooze" = buildPath "incidents" id "snooze" ""
    unfold buildPath
    rw [if_neg hid, if_neg (by decide : ¬("snooze" : String) = ""), if_pos rfl,
      String.append_empty]
    apply String.ext
    simp only [String.data_append, List.append_assoc]
    rfl
  · show "/incidents/" ++ id ++ "/responder_requests" =
      buildPath "incidents" id "responder_requests" ""
    unfold buildPath
    rw [if_neg hid, if_neg (by decide : ¬("responder_requests" : String) = ""), if_pos rfl,
      String.append_empty]
    apply String.ext
    simp only [String.data_append, List.append_assoc]
    rfl
  · show "/incidents/" ++ id ++ "/alerts/" ++ subId = buildPath "incidents" id "alerts" subId
    unfold buildPath
    rw [if_neg hid, if_neg (by decide : ¬("alerts" : String) = ""), if_neg hsub]
    apply String.ext
    simp only [String.data_append, List.append_assoc]
    rfl
  · show "/incidents?" ++ byteStrToString (encodeListIncidentsOptions o) =
      buildPath "incidents" "" "" "" ++ "?" ++ byteStrToString (encodeListIncidentsOptions o)
    unfold buildPath
    rw [if_pos rfl, String.append_empty]
    apply String.ext
    simp only [String.data_append, List.append_assoc]
    rfl
  · show "/incidents/" ++ id ++ "/alerts?" ++
        byteStrToString (encodeListIncidentAlertsOptions ao) =
      buildPath "incidents" id "alerts" "" ++ "?" ++
        byteStrToString (encodeListIncidentAlertsOptions ao)
    unfold buildPath
    rw [if_neg hid, if_neg (by decide : ¬("alerts" : String) = ""), if_pos rfl,
      String.append_empty]
    apply String.ext
    simp only [String.data_append, List.append_assoc]
    rfl
  · show "/incidents/" ++ id ++ "/log_entries?" ++
        byteStrToString (encodeListIncidentLogEntriesOptions lo) =
      buildPath "incidents" id "log_entries" "" ++ "?" ++
        byteStrToString (encodeListIncidentLogEntriesOptions lo)
    unfold buildPath
    rw [if_neg hid, if_neg (by decide : ¬("log_entries" : String) = ""), if_pos rfl,
      String.append_empty]
    apply String.ext
    simp only [String.data_append, List.append_assoc]
    rfl
  · show "/incidents/" ++ id ++ "/alerts/" =
      buildPath "incidents" id "alerts" "" ++ "/"
    unfold buildPath
    rw [if_neg hid, if_neg (by decide : ¬("alerts" : String) = ""), if_pos rfl,
      String.append_empty]
    apply String.ext
    simp only [String.data_append, List.append_assoc]
    rfl

/-- Witness for C9 as amended at concrete identifiers. -/
theorem claim_C9_amended_witness :
    (Client.mergeIncidentsCall Ctx.background "ops@example.com" "I1" []).path =
      buildPath "incidents" "I1" "merge" "" ∧
    (Client.getIncidentAlertCall Ctx.background "I1" "A7").path =
      buildPath "incidents" "I1" "alerts" "A7" ∧
    (Client.manageIncidentAlertsCall Ctx.background "I1" {}).path =
      buildPath "incidents" "I1" "alerts" "" ++ "/" := by
  have h := claim_C9_amended Ctx.background "ops@example.com" "I1" "A7"
    (by decide) (by decide) {} {} {} {} [] [] {} {} 5 {}
  exact ⟨h.2.2.2.1, h.2.2.2.2.2.2.2.2.1, h.2.2.2.2.2.2.2.2.2.2.2.2⟩
